import Mathlib

/-!
Verification of the ManageUsers forum backend (Flask + SQLAlchemy).

This file shallowly embeds the backend's data model (`models.py`) and its
request handlers (`app.py`) as executable Lean definitions, then proves the
specification claims about them.

Modelling conventions:
* Strings are `List Char` (`Str`); SQL `ILIKE` case folding is ASCII, as in
  the SQLite engine the app runs on.
* The database is a `DB` record of row lists plus per-table auto-increment
  counters and a clock supplying `utcnow`.
* Each mutating handler is a function `... → DB → Option (Nat × DB)` returning
  the HTTP status and the persistent state after the request.  `none` models an
  unhandled Python exception (the `'field' in None` TypeError of handlers that
  read the JSON body without a presence guard).  An early `return` without
  `db.session.commit()` leaves the persistent state unchanged (the
  request-scoped session is rolled back at teardown), so error branches return
  the incoming `db`.
* The `@token_required` / `@admin_required` decorators are modelled in the
  dispatcher `applyOp`: an operation carries the authenticated user id, which
  is resolved against the users table (401 when absent), and admin routes
  check the admin flag (403).
-/

abbrev Str := List Char

/-- Python truthiness of `data.get('field')` for a string field:
false when the key is absent or the value is the empty string. -/
def strTruthy : Option Str → Bool
  | some s => !s.isEmpty
  | none => false

/-- ASCII lower-casing (code points 65–90 shift to 97–122), the case folding
SQLite's `LIKE`/`ILIKE` applies. -/
def lowerChar (c : Char) : Char :=
  if 65 ≤ c.toNat ∧ c.toNat ≤ 90 then Char.ofNat (c.toNat + 32) else c

def lowerStr (s : Str) : Str := s.map lowerChar

/-- SQL `LIKE` pattern matching: `%` matches any (possibly empty) sequence,
`_` matches any single character, every other pattern character matches
itself.  Structural recursion on the pattern. -/
def likeMatch : Str → Str → Bool
  | [], t => t.isEmpty
  | p :: ps, t =>
    if p = '%' then t.tails.any (fun t' => likeMatch ps t')
    else
      match t with
      | [] => false
      | c :: ts => if p = '_' then likeMatch ps ts else p == c && likeMatch ps ts

/-- `ILIKE`: case-insensitive `LIKE`. -/
def ilikeMatch (pat s : Str) : Bool := likeMatch (lowerStr pat) (lowerStr s)

/-- The pattern `f'%{query}%'` built by the search handler. -/
def searchPattern (q : Str) : Str := '%' :: (q ++ ['%'])

/-- `startsWithStr q s` holds when `q` is an initial segment of `s`. -/
def startsWithStr : Str → Str → Bool
  | [], _ => true
  | _ :: _, [] => false
  | a :: as, b :: bs => a == b && startsWithStr as bs

/-- `substrAt q s` holds when `q` occurs contiguously somewhere in `s`. -/
def substrAt (q : Str) : Str → Bool
  | [] => startsWithStr q []
  | c :: s' => startsWithStr q (c :: s') || substrAt q s'

/-- Case-insensitive substring containment, the relation the spec describes
for search. -/
def ciSub (q s : Str) : Bool := substrAt (lowerStr q) (lowerStr s)

/-- `q` contains none of the SQL `LIKE` wildcard characters. -/
def noWildcards (q : Str) : Bool := q.all (fun c => !(c == '%') && !(c == '_'))

/-! ## Data model (`models.py`) -/

structure User where
  id : Nat
  username : Str
  email : Str
  password_hash : Str
  is_admin : Bool
  created_at : Nat
deriving Repr, DecidableEq

structure Post where
  id : Nat
  title : Str
  content : Str
  user_id : Nat
  created_at : Nat
  updated_at : Nat
deriving Repr, DecidableEq

structure Comment where
  id : Nat
  content : Str
  user_id : Nat
  post_id : Nat
  created_at : Nat
  updated_at : Nat
deriving Repr, DecidableEq

structure Like where
  id : Nat
  user_id : Nat
  post_id : Option Nat
  comment_id : Option Nat
  created_at : Nat
deriving Repr, DecidableEq

/-- `werkzeug.generate_password_hash`, kept abstract: the hash of a password
is modelled as the password itself; `check_password_hash` is equality against
it.  No claim depends on properties of the hash function. -/
def hashPassword (p : Str) : Str := p

structure DB where
  users : List User
  posts : List Post
  comments : List Comment
  likes : List Like
  next_user_id : Nat
  next_post_id : Nat
  next_comment_id : Nat
  next_like_id : Nat
  now : Nat
deriving Repr, DecidableEq

/-- The JSON request body, projected to the fields the handlers read.
`none` means the key is absent from the dict; `some ""` is present-but-empty
(the two differ for `'key' in data` versus `data.get('key')` truthiness). -/
structure Body where
  username : Option Str := none
  email : Option Str := none
  password : Option Str := none
  is_admin : Option Bool := none
  title : Option Str := none
  content : Option Str := none
  current_password : Option Str := none
  new_password : Option Str := none
deriving Repr, DecidableEq

/-- `User.query.get(data['user_id'])` performed by `@token_required`. -/
def resolveUser (uid : Nat) (db : DB) : Option User :=
  db.users.find? (fun u => u.id == uid)

/-! ## Handlers (`app.py`) -/

/-- `POST /api/register`. -/
def register (d : Option Body) (db : DB) : Option (Nat × DB) :=
  match d with
  | none => some (400, db)
  | some data =>
    if !strTruthy data.username || !strTruthy data.email || !strTruthy data.password then
      some (400, db)
    else
      match (db.users.find? (fun u => u.username == data.username.getD [])) with
      | some _ => some (409, db)
      | none =>
        match (db.users.find? (fun u => u.email == data.email.getD [])) with
        | some _ => some (409, db)
        | none =>
          let user : User :=
            { id := db.next_user_id
              username := data.username.getD []
              email := data.email.getD []
              password_hash := hashPassword (data.password.getD [])
              is_admin := data.is_admin.getD false
              created_at := db.now }
          some (201, { db with users := db.users ++ [user],
                               next_user_id := db.next_user_id + 1 })

/-- `POST /api/login` (issues a token; never mutates the database). -/
def login (d : Option Body) (db : DB) : Option (Nat × DB) :=
  match d with
  | none => some (400, db)
  | some data =>
    if !strTruthy data.username || !strTruthy data.password then some (400, db)
    else
      match db.users.find? (fun u => u.username == data.username.getD []) with
      | none => some (401, db)
      | some u =>
        if u.password_hash == hashPassword (data.password.getD []) then some (200, db)
        else some (401, db)

/-- Cascade of `db.session.delete(user)`: the user's posts, comments and likes
go, the comments of the deleted posts go, and the likes reached through the
`Post.likes` / `Comment.likes` relationships (whose `primaryjoin` requires the
other foreign key to be NULL) go too. -/
def cascadeDeleteUser (target : Nat) (db : DB) : DB :=
  let deadPostIds := (db.posts.filter (fun p => p.user_id == target)).map (fun p => p.id)
  let deadCommentIds :=
    (db.comments.filter
      (fun c => c.user_id == target || deadPostIds.contains c.post_id)).map (fun c => c.id)
  { db with
    users := db.users.filter (fun u => !(u.id == target))
    posts := db.posts.filter (fun p => !(p.user_id == target))
    comments := db.comments.filter
      (fun c => !(c.user_id == target || deadPostIds.contains c.post_id))
    likes := db.likes.filter (fun l =>
      !(l.user_id == target
        || ((match l.post_id with
             | some p => deadPostIds.contains p
             | none => false) && l.comment_id == none)
        || ((match l.comment_id with
             | some c => deadCommentIds.contains c
             | none => false) && l.post_id == none))) }

/-- `DELETE /api/admin/users/<id>` (body of the handler, after the
decorators). -/
def delete_user (cu : User) (target : Nat) (db : DB) : Option (Nat × DB) :=
  if cu.id == target then some (400, db)
  else
    match db.users.find? (fun u => u.id == target) with
    | none => some (404, db)
    | some _ => some (200, cascadeDeleteUser target db)

/-- Final part of `update_user`: the optional password change followed by
`db.session.commit()`. -/
def uu_commit (target : Nat) (user : User) (data : Body) (db : DB) :
    Option (Nat × DB) :=
  match data.password with
  | some p =>
    if !p.isEmpty then
      some (200, { db with
        users := db.users.map (fun u =>
          if u.id == target then { user with password_hash := hashPassword p } else u) })
    else
      some (200, { db with
        users := db.users.map (fun u => if u.id == target then user else u) })
  | none =>
    some (200, { db with
      users := db.users.map (fun u => if u.id == target then user else u) })

/-- `update_user`, step `if 'is_admin' in data` (with the self-lockout
guard). -/
def uu_adminStep (cu : User) (target : Nat) (user : User) (data : Body) (db : DB) :
    Option (Nat × DB) :=
  match data.is_admin with
  | some b =>
    if cu.id == target then some (400, db)
    else uu_commit target { user with is_admin := b } data db
  | none => uu_commit target user data db

/-- `update_user`, step `if 'email' in data` (uniqueness check). -/
def uu_emailStep (cu : User) (target : Nat) (user : User) (data : Body) (db : DB) :
    Option (Nat × DB) :=
  match data.email with
  | some em =>
    match db.users.find? (fun u => u.email == em) with
    | some existing =>
      if existing.id != target then some (409, db)
      else uu_adminStep cu target { user with email := em } data db
    | none => uu_adminStep cu target { user with email := em } data db
  | none => uu_adminStep cu target user data db

/-- `PUT /api/admin/users/<id>` (body of the handler).  Reads the JSON body
without a presence guard: a missing body crashes (`none`). -/
def update_user (cu : User) (target : Nat) (d : Option Body) (db : DB) :
    Option (Nat × DB) :=
  match db.users.find? (fun u => u.id == target) with
  | none => some (404, db)
  | some user =>
    match d with
    | none => none
    | some data =>
      match data.username with
      | some un =>
        match db.users.find? (fun u => u.username == un) with
        | some existing =>
          if existing.id != target then some (409, db)
          else uu_emailStep cu target { user with username := un } data db
        | none => uu_emailStep cu target { user with username := un } data db
      | none => uu_emailStep cu target user data db

/-- Descending creation-time order used by `order_by(Post.created_at.desc())`. -/
def postDesc (a b : Post) : Prop := b.created_at ≤ a.created_at

instance : DecidableRel postDesc := fun a b => inferInstanceAs (Decidable (_ ≤ _))

instance : IsTotal Post postDesc := ⟨fun a b => by unfold postDesc; exact le_total _ _⟩

instance : IsTrans Post postDesc := ⟨fun a b c h h' => by
  unfold postDesc at *; exact le_trans h' h⟩

/-- The payload of `GET /api/posts`. -/
structure PostsPage where
  posts : List Post
  total : Nat
  page : Nat
  per_page : Nat
  total_pages : Nat
deriving Repr, DecidableEq

/-- `GET /api/posts?page=&per_page=`; query parameters in the domain the
pagination claim quantifies over (`per_page ≥ 1`, on which Python's `//`
agrees with `Nat` division). -/
def get_posts (page per_page : Nat) (db : DB) : Nat × PostsPage :=
  let sorted := List.insertionSort postDesc db.posts
  let total := db.posts.length
  (200,
    { posts := (sorted.drop ((page - 1) * per_page)).take per_page
      total := total
      page := page
      per_page := per_page
      total_pages := (total + per_page - 1) / per_page })

/-- `POST /api/posts` (body of the handler). -/
def create_post (cu : User) (d : Option Body) (db : DB) : Option (Nat × DB) :=
  match d with
  | none => some (400, db)
  | some data =>
    if !strTruthy data.title || !strTruthy data.content then some (400, db)
    else
      let post : Post :=
        { id := db.next_post_id
          title := data.title.getD []
          content := data.content.getD []
          user_id := cu.id
          created_at := db.now
          updated_at := db.now }
      some (201, { db with posts := db.posts ++ [post],
                           next_post_id := db.next_post_id + 1 })

/-- `PUT /api/posts/<id>` (body of the handler).  The ownership check runs
before the body is read; the body itself is read without a presence guard. -/
def update_post (cu : User) (pid : Nat) (d : Option Body) (db : DB) :
    Option (Nat × DB) :=
  match db.posts.find? (fun p => p.id == pid) with
  | none => some (404, db)
  | some post =>
    if post.user_id != cu.id && !cu.is_admin then some (403, db)
    else
      match d with
      | none => none
      | some data =>
        let post := match data.title with
          | some t => { post with title := t }
          | none => post
        let post := match data.content with
          | some c => { post with content := c }
          | none => post
        let post := { post with updated_at := db.now }
        some (200, { db with
          posts := db.posts.map (fun p => if p.id == pid then post else p) })

/-- `DELETE /api/posts/<id>` (body of the handler), with the cascade to the
post's comments and their likes. -/
def delete_post (cu : User) (pid : Nat) (db : DB) : Option (Nat × DB) :=
  match db.posts.find? (fun p => p.id == pid) with
  | none => some (404, db)
  | some post =>
    if post.user_id != cu.id && !cu.is_admin then some (403, db)
    else
      let deadCommentIds :=
        (db.comments.filter (fun c => c.post_id == pid)).map (fun c => c.id)
      some (200, { db with
        posts := db.posts.filter (fun p => !(p.id == pid))
        comments := db.comments.filter (fun c => !(c.post_id == pid))
        likes := db.likes.filter (fun l =>
          !((l.post_id == some pid && l.comment_id == none)
            || ((match l.comment_id with
                 | some c => deadCommentIds.contains c
                 | none => false) && l.post_id == none))) })

/-- `POST /api/posts/<id>/comments` (body of the handler). -/
def create_comment (cu : User) (pid : Nat) (d : Option Body) (db : DB) :
    Option (Nat × DB) :=
  match db.posts.find? (fun p => p.id == pid) with
  | none => some (404, db)
  | some _ =>
    match d with
    | none => some (400, db)
    | some data =>
      if !strTruthy data.content then some (400, db)
      else
        let comment : Comment :=
          { id := db.next_comment_id
            content := data.content.getD []
            user_id := cu.id
            post_id := pid
            created_at := db.now
            updated_at := db.now }
        some (201, { db with comments := db.comments ++ [comment],
                             next_comment_id := db.next_comment_id + 1 })

/-- `PUT /api/comments/<id>` (body of the handler; this one guards the body). -/
def update_comment (cu : User) (cid : Nat) (d : Option Body) (db : DB) :
    Option (Nat × DB) :=
  match db.comments.find? (fun c => c.id == cid) with
  | none => some (404, db)
  | some comment =>
    if comment.user_id != cu.id && !cu.is_admin then some (403, db)
    else
      match d with
      | none => some (400, db)
      | some data =>
        if !strTruthy data.content then some (400, db)
        else
          let comment := { comment with content := data.content.getD [],
                                        updated_at := db.now }
          some (200, { db with
            comments := db.comments.map (fun c => if c.id == cid then comment else c) })

/-- `DELETE /api/comments/<id>` (body of the handler), cascading to the
comment's likes. -/
def delete_comment (cu : User) (cid : Nat) (db : DB) : Option (Nat × DB) :=
  match db.comments.find? (fun c => c.id == cid) with
  | none => some (404, db)
  | some comment =>
    if comment.user_id != cu.id && !cu.is_admin then some (403, db)
    else
      some (200, { db with
        comments := db.comments.filter (fun c => !(c.id == cid))
        likes := db.likes.filter (fun l =>
          !(l.comment_id == some cid && l.post_id == none)) })

/-- The row filter of
`Like.query.filter_by(user_id=..., post_id=..., comment_id=None)`. -/
def postLikeMatch (uid pid : Nat) (l : Like) : Bool :=
  l.user_id == uid && l.post_id == some pid && l.comment_id == none

/-- The row filter of
`Like.query.filter_by(user_id=..., comment_id=..., post_id=None)`. -/
def commentLikeMatch (uid cid : Nat) (l : Like) : Bool :=
  l.user_id == uid && l.comment_id == some cid && l.post_id == none

/-- The row `Like(user_id=..., post_id=...)` inserted by the post-like
handler. -/
def mkPostLike (i u pid t : Nat) : Like :=
  { id := i, user_id := u, post_id := some pid, comment_id := none, created_at := t }

/-- The row `Like(user_id=..., comment_id=...)` inserted by the comment-like
handler. -/
def mkCommentLike (i u cid t : Nat) : Like :=
  { id := i, user_id := u, post_id := none, comment_id := some cid, created_at := t }

/-- `POST /api/posts/<id>/like` (body of the handler). -/
def toggle_post_like (cu : User) (pid : Nat) (db : DB) : Option (Nat × DB) :=
  match db.posts.find? (fun p => p.id == pid) with
  | none => some (404, db)
  | some _ =>
    match db.likes.find? (postLikeMatch cu.id pid) with
    | some _ =>
      some (200, { db with likes := db.likes.eraseP (postLikeMatch cu.id pid) })
    | none =>
      some (201, { db with
        likes := db.likes ++ [mkPostLike db.next_like_id cu.id pid db.now]
        next_like_id := db.next_like_id + 1 })

/-- `POST /api/comments/<id>/like` (body of the handler). -/
def toggle_comment_like (cu : User) (cid : Nat) (db : DB) : Option (Nat × DB) :=
  match db.comments.find? (fun c => c.id == cid) with
  | none => some (404, db)
  | some _ =>
    match db.likes.find? (commentLikeMatch cu.id cid) with
    | some _ =>
      some (200, { db with likes := db.likes.eraseP (commentLikeMatch cu.id cid) })
    | none =>
      some (201, { db with
        likes := db.likes ++ [mkCommentLike db.next_like_id cu.id cid db.now]
        next_like_id := db.next_like_id + 1 })

/-- Final part of `update_own_profile`: `db.session.commit()`. -/
def up_commit (cu cu' : User) (db : DB) : Option (Nat × DB) :=
  some (200, { db with
    users := db.users.map (fun u => if u.id == cu.id then cu' else u) })

/-- `update_own_profile`, step `if 'email' in data`. -/
def up_emailStep (cu cu' : User) (data : Body) (db : DB) : Option (Nat × DB) :=
  match data.email with
  | some em =>
    match db.users.find? (fun u => u.email == em) with
    | some existing =>
      if existing.id != cu.id then some (409, db)
      else up_commit cu { cu' with email := em } db
    | none => up_commit cu { cu' with email := em } db
  | none => up_commit cu cu' db

/-- `PUT /api/profile` (body of the handler).  Reads the JSON body without a
presence guard: a missing body crashes (`none`). -/
def update_own_profile (cu : User) (d : Option Body) (db : DB) :
    Option (Nat × DB) :=
  match d with
  | none => none
  | some data =>
    match data.username with
    | some un =>
      match db.users.find? (fun u => u.username == un) with
      | some existing =>
        if existing.id != cu.id then some (409, db)
        else up_emailStep cu { cu with username := un } data db
      | none => up_emailStep cu { cu with username := un } data db
    | none => up_emailStep cu cu data db

/-- `PUT /api/profile/password` (body of the handler; guards the body). -/
def update_password (cu : User) (d : Option Body) (db : DB) : Option (Nat × DB) :=
  match d with
  | none => some (400, db)
  | some data =>
    if !strTruthy data.current_password || !strTruthy data.new_password then
      some (400, db)
    else if cu.password_hash != hashPassword (data.current_password.getD []) then
      some (401, db)
    else if (data.new_password.getD []).length < 6 then some (400, db)
    else
      some (200, { db with
        users := db.users.map (fun u =>
          if u.id == cu.id then
            { u with password_hash := hashPassword (data.new_password.getD []) }
          else u) })

/-- `GET /api/posts/search?q=`. -/
def postMatches (q : Str) (p : Post) : Bool :=
  ilikeMatch (searchPattern q) p.title || ilikeMatch (searchPattern q) p.content

def search_posts (q : Str) (db : DB) : Nat × List Post :=
  if q.length < 2 then (400, [])
  else
    (200, (List.insertionSort postDesc (db.posts.filter (postMatches q))).take 50)

/-- The match relation the spec describes for search: `q` occurs
case-insensitively in the title or the content. -/
def specMatches (q : Str) (p : Post) : Bool :=
  ciSub q p.title || ciSub q p.content

/-! ## Invariants of the `likes` table -/

/-- The `check_like_target` constraint: exactly one of `post_id` /
`comment_id` is set. -/
def likeTargetOk (l : Like) : Bool :=
  (l.post_id.isSome && l.comment_id.isNone) || (l.post_id.isNone && l.comment_id.isSome)

/-- C3's invariant on a database state. -/
def likeXorOk (db : DB) : Prop := db.likes.all likeTargetOk = true

/-- C4's invariant: the `unique_user_like` constraint, phrased per
user/target. -/
def likeAtMostOnce (db : DB) : Prop :=
  (∀ u p, db.likes.countP (postLikeMatch u p) ≤ 1) ∧
  (∀ u c, db.likes.countP (commentLikeMatch u c) ≤ 1)

/-- Both like-table invariants, over a bare row list (used for the
preservation induction). -/
def LikesInv (ls : List Like) : Prop :=
  ls.all likeTargetOk = true ∧
  (∀ u p, ls.countP (postLikeMatch u p) ≤ 1) ∧
  (∀ u c, ls.countP (commentLikeMatch u c) ≤ 1)

/-- Observable like state of a user on a post. -/
def postLiked (u p : Nat) (db : DB) : Bool := db.likes.any (postLikeMatch u p)

/-- Observable like state of a user on a comment. -/
def commentLiked (u c : Nat) (db : DB) : Bool := db.likes.any (commentLikeMatch u c)

/-- Two states agree on every user's like state on every target. -/
def likedStatesEq (db1 db2 : DB) : Prop :=
  (∀ u p, postLiked u p db1 = postLiked u p db2) ∧
  (∀ u c, commentLiked u c db1 = commentLiked u c db2)

/-! ## Operations and reachability -/

/-- One authenticated/unauthenticated API request that may touch the store.
Authenticated operations carry the user id from the verified token. -/
inductive Op where
  | register (d : Option Body)
  | login (d : Option Body)
  | delete_user (uid target : Nat)
  | update_user (uid target : Nat) (d : Option Body)
  | create_post (uid : Nat) (d : Option Body)
  | update_post (uid pid : Nat) (d : Option Body)
  | delete_post (uid pid : Nat)
  | create_comment (uid pid : Nat) (d : Option Body)
  | update_comment (uid cid : Nat) (d : Option Body)
  | delete_comment (uid cid : Nat)
  | toggle_post_like (uid pid : Nat)
  | toggle_comment_like (uid cid : Nat)
  | update_own_profile (uid : Nat) (d : Option Body)
  | update_password (uid : Nat) (d : Option Body)
deriving Repr, DecidableEq

/-- Dispatch an operation through the `@token_required` / `@admin_required`
decorators to its handler. -/
def applyOp : Op → DB → Option (Nat × DB)
  | .register d, db => register d db
  | .login d, db => login d db
  | .delete_user uid target, db =>
    match resolveUser uid db with
    | none => some (401, db)
    | some cu => if !cu.is_admin then some (403, db) else delete_user cu target db
  | .update_user uid target d, db =>
    match resolveUser uid db with
    | none => some (401, db)
    | some cu => if !cu.is_admin then some (403, db) else update_user cu target d db
  | .create_post uid d, db =>
    match resolveUser uid db with
    | none => some (401, db)
    | some cu => create_post cu d db
  | .update_post uid pid d, db =>
    match resolveUser uid db with
    | none => some (401, db)
    | some cu => update_post cu pid d db
  | .delete_post uid pid, db =>
    match resolveUser uid db with
    | none => some (401, db)
    | some cu => delete_post cu pid db
  | .create_comment uid pid d, db =>
    match resolveUser uid db with
    | none => some (401, db)
    | some cu => create_comment cu pid d db
  | .update_comment uid cid d, db =>
    match resolveUser uid db with
    | none => some (401, db)
    | some cu => update_comment cu cid d db
  | .delete_comment uid cid, db =>
    match resolveUser uid db with
    | none => some (401, db)
    | some cu => delete_comment cu cid db
  | .toggle_post_like uid pid, db =>
    match resolveUser uid db with
    | none => some (401, db)
    | some cu => toggle_post_like cu pid db
  | .toggle_comment_like uid cid, db =>
    match resolveUser uid db with
    | none => some (401, db)
    | some cu => toggle_comment_like cu cid db
  | .update_own_profile uid d, db =>
    match resolveUser uid db with
    | none => some (401, db)
    | some cu => update_own_profile cu d db
  | .update_password uid d, db =>
    match resolveUser uid db with
    | none => some (401, db)
    | some cu => update_password cu d db

/-- The state `create_tables` seeds on first launch: the default admin
account in an otherwise empty store. -/
def init_db : DB :=
  { users := [{ id := 1, username := "admin".toList, email := "admin@example.com".toList,
                password_hash := hashPassword "admin123".toList, is_admin := true,
                created_at := 0 }]
    posts := [], comments := [], likes := []
    next_user_id := 2, next_post_id := 1, next_comment_id := 1, next_like_id := 1
    now := 0 }

/-- Database states reachable from the seeded initial state by completed
(non-crashing) API requests. -/
inductive Reachable : DB → Prop where
  | init : Reachable init_db
  | step (op : Op) (db db' : DB) (st : Nat) :
      Reachable db → applyOp op db = some (st, db') → Reachable db'

/-! ## Concrete states and bodies used by witnesses and counterexamples -/

/-- A small state: an admin, two regular users, one post by bob (id 2), one
comment by carol (id 3). -/
def dbW : DB :=
  { users := [
      { id := 1, username := ("admin".toList), email := ("a@x".toList),
        password_hash := ("admin123".toList), is_admin := true, created_at := 0 },
      { id := 2, username := ("bob".toList), email := ("b@x".toList),
        password_hash := ("pw".toList), is_admin := false, created_at := 0 },
      { id := 3, username := ("carol".toList), email := ("c@x".toList),
        password_hash := ("pw".toList), is_admin := false, created_at := 0 }]
    posts := [{ id := 1, title := ("hi".toList), content := ("z".toList), user_id := 2,
                created_at := 5, updated_at := 5 }]
    comments := [{ id := 1, content := ("nice".toList), user_id := 3, post_id := 1,
                   created_at := 6, updated_at := 6 }]
    likes := []
    next_user_id := 4, next_post_id := 2, next_comment_id := 2, next_like_id := 1
    now := 9 }

/-- Admin's own-account PUT body: an `is_admin` field next to a username
already taken by user 2. -/
def bodyC2 : Body := { username := some ("bob".toList), is_admin := some false }

/-- A registration body claiming admin rights. -/
def bodyC6 : Body :=
  { username := some ("eve".toList), email := some ("e@x".toList),
    password := some ("pw".toList), is_admin := some true }

/-- A post-update body carrying a new title. -/
def bodyT : Body := { title := some ("new".toList) }

/-- A comment-update body carrying new content. -/
def bodyCt : Body := { content := some ("edited".toList) }

/-! # Theorems -/

/-! ## The pattern matcher versus substring containment -/

theorem tails_any_likeMatch_nil (t : Str) :
    (t.tails.any (fun t' => likeMatch [] t')) = true := by
  induction t with
  | nil => rfl
  | cons c ts ih => simp [List.tails_cons, likeMatch, ih]

theorem likeMatch_pct_nil (t : Str) : likeMatch ['%'] t = true := by
  simp [likeMatch, tails_any_likeMatch_nil]

theorem likeMatch_append_pct {q : Str} (hq : noWildcards q = true) :
    ∀ t, likeMatch (q ++ ['%']) t = startsWithStr q t := by
  induction q with
  | nil => intro t; simp [startsWithStr, likeMatch_pct_nil]
  | cons c q ih =>
    have hc : ¬(c = '%') ∧ ¬(c = '_') := by
      simp [noWildcards] at hq
      exact ⟨hq.1.1, hq.1.2⟩
    have hq' : noWildcards q = true := by
      simp [noWildcards] at hq ⊢
      exact hq.2
    intro t
    cases t with
    | nil => simp [likeMatch, startsWithStr, hc.1]
    | cons d ts => simp [likeMatch, startsWithStr, hc.1, hc.2, ih hq' ts]

theorem tails_any_startsWith (q t : Str) :
    (t.tails.any (fun t' => startsWithStr q t')) = substrAt q t := by
  induction t with
  | nil => simp [substrAt]
  | cons c ts ih => simp [List.tails_cons, substrAt, ih]

theorem likeMatch_searchPattern {q : Str} (hq : noWildcards q = true) (t : Str) :
    likeMatch (searchPattern q) t = substrAt q t := by
  show likeMatch ('%' :: (q ++ ['%'])) t = _
  simp only [likeMatch, eq_self_iff_true, if_true]
  rw [← tails_any_startsWith]
  simp only [likeMatch_append_pct hq]

theorem startsWithStr_iff (q : Str) :
    ∀ s, startsWithStr q s = true ↔ ∃ r, s = q ++ r := by
  induction q with
  | nil => intro s; simp [startsWithStr]
  | cons c q ih =>
    intro s
    cases s with
    | nil => simp [startsWithStr]
    | cons d s' =>
      simp only [startsWithStr, Bool.and_eq_true, beq_iff_eq, ih s', List.cons_append,
        List.cons.injEq]
      constructor
      · rintro ⟨rfl, r, rfl⟩; exact ⟨r, rfl, rfl⟩
      · rintro ⟨r, rfl, rfl⟩; exact ⟨rfl, r, rfl⟩

theorem substrAt_iff (q : Str) :
    ∀ s, substrAt q s = true ↔ ∃ a b, s = a ++ (q ++ b) := by
  intro s
  induction s with
  | nil =>
    simp only [substrAt, startsWithStr_iff]
    constructor
    · rintro ⟨r, hr⟩; exact ⟨[], r, hr⟩
    · rintro ⟨a, b, h⟩
      rcases List.append_eq_nil.mp h.symm with ⟨rfl, h2⟩
      exact ⟨b, by simpa using h⟩
  | cons c s' ih =>
    simp only [substrAt, Bool.or_eq_true, startsWithStr_iff, ih]
    constructor
    · rintro (⟨r, hr⟩ | ⟨a, b, h⟩)
      · exact ⟨[], r, hr⟩
      · exact ⟨c :: a, b, by simp [h]⟩
    · rintro ⟨a, b, h⟩
      cases a with
      | nil => exact Or.inl ⟨b, by simpa using h⟩
      | cons x a' =>
        right
        simp only [List.cons_append, List.cons.injEq] at h
        exact ⟨a', b, h.2⟩

theorem toNat_ofNat_small {n : Nat} (h : n < 55296) : (Char.ofNat n).toNat = n := by
  have hv : n.isValidChar := Or.inl h
  simp [Char.ofNat, hv, Char.toNat, Char.ofNatAux, UInt32.toNat, BitVec.toNat_ofNatLt]

theorem lowerChar_wild (c : Char) :
    (lowerChar c = '%' → c = '%') ∧ (lowerChar c = '_' → c = '_') := by
  unfold lowerChar
  split
  · next h =>
    have h37 : ('%' : Char).toNat = 37 := by decide
    have h95 : ('_' : Char).toNat = 95 := by decide
    constructor <;> intro he <;> exfalso
    · have := congrArg Char.toNat he
      rw [toNat_ofNat_small (by omega), h37] at this
      omega
    · have := congrArg Char.toNat he
      rw [toNat_ofNat_small (by omega), h95] at this
      omega
  · exact ⟨fun h => h, fun h => h⟩

theorem noWildcards_lowerStr {q : Str} (hq : noWildcards q = true) :
    noWildcards (lowerStr q) = true := by
  simp only [noWildcards, lowerStr, List.all_map, List.all_eq_true, Function.comp,
    Bool.and_eq_true, Bool.not_eq_true', beq_eq_false_iff_ne, ne_eq] at hq ⊢
  intro c hc
  exact ⟨fun hw => (hq c hc).1 ((lowerChar_wild c).1 hw),
         fun hw => (hq c hc).2 ((lowerChar_wild c).2 hw)⟩

theorem lowerStr_searchPattern (q : Str) :
    lowerStr (searchPattern q) = searchPattern (lowerStr q) := by
  have hp : lowerChar '%' = '%' := by decide
  simp [lowerStr, searchPattern, hp]

theorem ilikeMatch_eq_ciSub {q : Str} (hq : noWildcards q = true) (s : Str) :
    ilikeMatch (searchPattern q) s = ciSub q s := by
  unfold ilikeMatch ciSub
  rw [lowerStr_searchPattern, likeMatch_searchPattern (noWildcards_lowerStr hq)]

theorem postMatches_eq_spec {q : Str} (hq : noWildcards q = true) (p : Post) :
    postMatches q p = specMatches q p := by
  unfold postMatches specMatches
  rw [ilikeMatch_eq_ciSub hq, ilikeMatch_eq_ciSub hq]

/-- `ciSub` really is case-insensitive substring containment. -/
theorem ciSub_iff (q s : Str) :
    ciSub q s = true ↔ ∃ a b, lowerStr s = a ++ (lowerStr q ++ b) := by
  unfold ciSub
  exact substrAt_iff _ _

/-! ## C6: registration privilege escalation -/

/-- C6: the public, unauthenticated `/api/register` endpoint passes the
body's `is_admin` field straight into the created row: registering on the
freshly seeded store with `is_admin: true` returns 201 and the new user
("eve") carries the admin flag. -/
theorem c6_register_admin_escalation :
    (applyOp (.register (some bodyC6)) init_db).map
        (fun r => (r.1, r.2.users.map (fun u => (u.username, u.is_admin))))
      = some (201, [("admin".toList, true), ("eve".toList, true)]) := by decide

/-! ## C7: search semantics -/

/-- C7 (amended): a query shorter than 2 characters gets 400; otherwise the
endpoint returns 200 with at most 50 posts ordered by creation time
descending, and — provided the query contains no SQL `LIKE` wildcard
(`%`/`_`) — the list is exactly the first 50 of the posts whose title or
content contains the query as a case-insensitive substring.  (For queries
containing wildcards the match follows `LIKE`-pattern semantics instead;
see the counterexample.) -/
theorem c7_search_semantics (q : Str) (db : DB) :
    (q.length < 2 → search_posts q db = (400, [])) ∧
    (2 ≤ q.length →
      (search_posts q db).1 = 200 ∧
      (search_posts q db).2.length ≤ 50 ∧
      List.Sorted postDesc (search_posts q db).2 ∧
      (noWildcards q = true →
        (search_posts q db).2 =
          (List.insertionSort postDesc (db.posts.filter (specMatches q))).take 50)) := by
  constructor
  · intro h; simp [search_posts, h]
  · intro h
    have hn : ¬(q.length < 2) := by omega
    refine ⟨by simp [search_posts, hn], ?_, ?_, ?_⟩
    · simp only [search_posts, if_neg hn]
      exact List.length_take_le _ _
    · simp only [search_posts, if_neg hn]
      exact List.Pairwise.sublist (List.take_sublist _ _)
        (List.sorted_insertionSort postDesc _)
    · intro hw
      simp only [search_posts, if_neg hn]
      rw [List.filter_congr (fun p _ => postMatches_eq_spec hw p)]

theorem c7_search_witness :
    (search_posts ("hi".toList) dbW).1 = 200 ∧
    (search_posts ("hi".toList) dbW).2 =
      (List.insertionSort postDesc (dbW.posts.filter (specMatches ("hi".toList)))).take 50 :=
  ⟨((c7_search_semantics ("hi".toList) dbW).2 (by decide)).1,
   ((c7_search_semantics ("hi".toList) dbW).2 (by decide)).2.2.2 (by decide)⟩

/-- C7 counterexample: the two-character query `"__"` passes the length
check, and (being two `LIKE` single-character wildcards) matches the post
titled "hi" — which contains `"__"` in neither its title nor its content —
so the result is not "exactly the posts containing the query as a
substring". -/
theorem c7_counterexample :
    2 ≤ ("__".toList : Str).length ∧
    (search_posts ("__".toList) dbW).1 = 200 ∧
    (search_posts ("__".toList) dbW).2 =
      [{ id := 1, title := ("hi".toList), content := ("z".toList), user_id := 2,
         created_at := 5, updated_at := 5 }] ∧
    ciSub ("__".toList) ("hi".toList) = false ∧
    ciSub ("__".toList) ("z".toList) = false := by
  refine ⟨by decide, by decide, by decide, by decide, by decide⟩

/-! ## C8: pagination arithmetic -/

/-- C8: for any state with `t` posts and any `per_page ≥ 1`, the listing
endpoint's `total_pages` field is `(t + per_page - 1) / per_page`, which is
the ceiling of `t / per_page`: it is the least `k` with `t ≤ k * per_page`. -/
theorem c8_total_pages (page per_page : Nat) (db : DB) (hp : 1 ≤ per_page) :
    (get_posts page per_page db).2.total_pages
        = (db.posts.length + per_page - 1) / per_page ∧
    db.posts.length ≤ (get_posts page per_page db).2.total_pages * per_page ∧
    ∀ k, db.posts.length ≤ k * per_page →
      (get_posts page per_page db).2.total_pages ≤ k := by
  have h1 : (get_posts page per_page db).2.total_pages
      = (db.posts.length + per_page - 1) / per_page := rfl
  refine ⟨h1, ?_, ?_⟩
  · rw [h1]
    have h3 : db.posts.length + per_page - 1
        ≤ per_page * ((db.posts.length + per_page - 1) / per_page) + (per_page - 1) :=
      (Nat.div_le_iff_le_mul_add_pred (show 0 < per_page by omega)).mp (le_refl _)
    rw [Nat.mul_comm] at h3
    generalize ((db.posts.length + per_page - 1) / per_page) * per_page = B at *
    omega
  · intro k hk
    rw [h1]
    apply (Nat.div_le_iff_le_mul_add_pred (show 0 < per_page by omega)).mpr
    rw [Nat.mul_comm per_page k]
    generalize k * per_page = C at hk ⊢
    omega

theorem c8_total_pages_witness :
    (get_posts 1 10 dbW).2.total_pages = (dbW.posts.length + 10 - 1) / 10 ∧
    dbW.posts.length ≤ (get_posts 1 10 dbW).2.total_pages * 10 :=
  ⟨(c8_total_pages 1 10 dbW (by decide)).1, (c8_total_pages 1 10 dbW (by decide)).2.1⟩

/-! ## List helpers for the likes table -/

theorem any_eraseP_of_imp {α} {p q : α → Bool} {l : List α}
    (h : ∀ x, q x = true → p x = false) : (l.eraseP q).any p = l.any p := by
  induction l with
  | nil => rfl
  | cons a l ih =>
    by_cases hq : q a = true
    · rw [List.eraseP_cons_of_pos hq, List.any_cons, h a hq]
      simp
    · rw [List.eraseP_cons_of_neg hq, List.any_cons, List.any_cons, ih]

theorem eraseP_append_singleton {α} {q : α → Bool} {l : List α} {a : α}
    (h : ∀ x ∈ l, q x = false) (ha : q a = true) : (l ++ [a]).eraseP q = l := by
  induction l with
  | nil => simp [List.eraseP_cons_of_pos ha]
  | cons b l ih =>
    have hb : ¬ q b = true := by simp [h b (List.mem_cons_self b l)]
    rw [List.cons_append, List.eraseP_cons_of_neg hb,
      ih (fun x hx => h x (List.mem_cons_of_mem _ hx))]

theorem any_eraseP_self {α} {q : α → Bool} {l : List α}
    (hU : l.countP q ≤ 1) : (l.eraseP q).any q = false := by
  induction l with
  | nil => rfl
  | cons a l ih =>
    by_cases hq : q a = true
    · rw [List.eraseP_cons_of_pos hq]
      rw [List.countP_cons, if_pos hq] at hU
      have h0 : l.countP q = 0 := by omega
      rcases hany : l.any q with _ | _
      · rfl
      · rw [List.any_eq_true] at hany
        obtain ⟨x, hx, hqx⟩ := hany
        exact False.elim ((List.countP_eq_zero.mp h0 x hx) hqx)
    · rw [List.eraseP_cons_of_neg hq, List.any_cons, ih ?_]
      · simp [hq]
      · rw [List.countP_cons, if_neg hq] at hU
        omega

theorem find?_append_none {α} {p : α → Bool} {l₁ l₂ : List α}
    (h : l₁.find? p = none) : (l₁ ++ l₂).find? p = l₂.find? p := by
  induction l₁ with
  | nil => rfl
  | cons a l ih =>
    rw [List.find?_cons] at h
    rw [List.cons_append, List.find?_cons]
    rcases hpa : p a with _ | _
    · rw [hpa] at h
      simp only [hpa]
      exact ih h
    · rw [hpa] at h
      simp at h

theorem find?_none_of_any_false {α} {p : α → Bool} {l : List α}
    (h : l.any p = false) : l.find? p = none := by
  rw [List.find?_eq_none]
  intro x hx hpx
  have hT := List.any_eq_true.mpr ⟨x, hx, hpx⟩
  simp [hT] at h

theorem postLikeMatch_iff {u p : Nat} {l : Like} :
    postLikeMatch u p l = true ↔
      l.user_id = u ∧ l.post_id = some p ∧ l.comment_id = none := by
  simp [postLikeMatch, and_assoc]

theorem commentLikeMatch_iff {u c : Nat} {l : Like} :
    commentLikeMatch u c l = true ↔
      l.user_id = u ∧ l.comment_id = some c ∧ l.post_id = none := by
  simp [commentLikeMatch, and_assoc]

/-! ## Toggle-handler branch lemmas -/

theorem resolveUser_id {uid : Nat} {db : DB} {cu : User}
    (h : resolveUser uid db = some cu) : cu.id = uid := by
  have := List.find?_some h
  simpa using this

theorem applyOp_toggle_post (uid pid : Nat) {db : DB} {cu : User}
    (hcu : resolveUser uid db = some cu) :
    applyOp (.toggle_post_like uid pid) db = toggle_post_like cu pid db := by
  simp [applyOp, hcu]

theorem applyOp_toggle_comment (uid cid : Nat) {db : DB} {cu : User}
    (hcu : resolveUser uid db = some cu) :
    applyOp (.toggle_comment_like uid cid) db = toggle_comment_like cu cid db := by
  simp [applyOp, hcu]

theorem toggle_post_like_found {cu : User} {pid : Nat} {db : DB} {post : Post} {l : Like}
    (hp : db.posts.find? (fun p => p.id == pid) = some post)
    (hl : db.likes.find? (postLikeMatch cu.id pid) = some l) :
    toggle_post_like cu pid db
      = some (200, { db with likes := db.likes.eraseP (postLikeMatch cu.id pid) }) := by
  unfold toggle_post_like
  rw [hp, hl]

theorem toggle_post_like_notfound {cu : User} {pid : Nat} {db : DB} {post : Post}
    (hp : db.posts.find? (fun p => p.id == pid) = some post)
    (hl : db.likes.find? (postLikeMatch cu.id pid) = none) :
    toggle_post_like cu pid db
      = some (201, { db with
          likes := db.likes ++ [mkPostLike db.next_like_id cu.id pid db.now]
          next_like_id := db.next_like_id + 1 }) := by
  unfold toggle_post_like
  rw [hp, hl]

theorem toggle_comment_like_found {cu : User} {cid : Nat} {db : DB} {comment : Comment}
    {l : Like}
    (hc : db.comments.find? (fun c => c.id == cid) = some comment)
    (hl : db.likes.find? (commentLikeMatch cu.id cid) = some l) :
    toggle_comment_like cu cid db
      = some (200, { db with likes := db.likes.eraseP (commentLikeMatch cu.id cid) }) := by
  unfold toggle_comment_like
  rw [hc, hl]

theorem toggle_comment_like_notfound {cu : User} {cid : Nat} {db : DB} {comment : Comment}
    (hc : db.comments.find? (fun c => c.id == cid) = some comment)
    (hl : db.likes.find? (commentLikeMatch cu.id cid) = none) :
    toggle_comment_like cu cid db
      = some (201, { db with
          likes := db.likes ++ [mkCommentLike db.next_like_id cu.id cid db.now]
          next_like_id := db.next_like_id + 1 }) := by
  unfold toggle_comment_like
  rw [hc, hl]

theorem likedStatesEq_of_likes_eq {db1 db2 : DB} (h : db1.likes = db2.likes) :
    likedStatesEq db1 db2 := by
  constructor <;> intro u t <;> simp only [postLiked, commentLiked, h]

theorem postLikeMatch_disj {u1 p1 u2 p2 : Nat} (h : ¬(u2 = u1 ∧ p2 = p1)) :
    ∀ x, postLikeMatch u1 p1 x = true → postLikeMatch u2 p2 x = false := by
  intro x hx
  obtain ⟨h1, h2, _⟩ := postLikeMatch_iff.mp hx
  rcases hb : postLikeMatch u2 p2 x with _ | _
  · rfl
  · obtain ⟨g1, g2, _⟩ := postLikeMatch_iff.mp hb
    exact (h ⟨g1.symm.trans h1, Option.some.inj (g2.symm.trans h2)⟩).elim

theorem commentLikeMatch_disj {u1 c1 u2 c2 : Nat} (h : ¬(u2 = u1 ∧ c2 = c1)) :
    ∀ x, commentLikeMatch u1 c1 x = true → commentLikeMatch u2 c2 x = false := by
  intro x hx
  obtain ⟨h1, h2, _⟩ := commentLikeMatch_iff.mp hx
  rcases hb : commentLikeMatch u2 c2 x with _ | _
  · rfl
  · obtain ⟨g1, g2, _⟩ := commentLikeMatch_iff.mp hb
    exact (h ⟨g1.symm.trans h1, Option.some.inj (g2.symm.trans h2)⟩).elim

theorem post_comment_disj {u1 p1 u2 c2 : Nat} :
    ∀ x, postLikeMatch u1 p1 x = true → commentLikeMatch u2 c2 x = false := by
  intro x hx
  obtain ⟨_, _, h3⟩ := postLikeMatch_iff.mp hx
  simp [commentLikeMatch, h3]

theorem comment_post_disj {u1 c1 u2 p2 : Nat} :
    ∀ x, commentLikeMatch u1 c1 x = true → postLikeMatch u2 p2 x = false := by
  intro x hx
  obtain ⟨_, _, h3⟩ := commentLikeMatch_iff.mp hx
  simp [postLikeMatch, h3]

theorem postLikeMatch_mk_false {u' p' uid pid i t : Nat} (h : ¬(u' = uid ∧ p' = pid)) :
    postLikeMatch u' p' (mkPostLike i uid pid t) = false := by
  rcases hb : postLikeMatch u' p' _ with _ | _
  · rfl
  · obtain ⟨g1, g2, _⟩ := postLikeMatch_iff.mp hb
    exact (h ⟨g1.symm, (Option.some.inj g2).symm⟩).elim

theorem commentLikeMatch_mk_false {u' c' uid cid i t : Nat} (h : ¬(u' = uid ∧ c' = cid)) :
    commentLikeMatch u' c' (mkCommentLike i uid cid t) = false := by
  rcases hb : commentLikeMatch u' c' _ with _ | _
  · rfl
  · obtain ⟨g1, g2, _⟩ := commentLikeMatch_iff.mp hb
    exact (h ⟨g1.symm, (Option.some.inj g2).symm⟩).elim

theorem c5_post_aux (db : DB) (cu : User)
    (hcu : resolveUser cu.id db = some cu) (hU : likeAtMostOnce db)
    (pid : Nat) (post : Post) (hp : db.posts.find? (fun p => p.id == pid) = some post) :
    (postLiked cu.id pid db = true →
      applyOp (.toggle_post_like cu.id pid) db
        = some (200, { db with likes := db.likes.eraseP (postLikeMatch cu.id pid) }) ∧
      postLiked cu.id pid
        { db with likes := db.likes.eraseP (postLikeMatch cu.id pid) } = false) ∧
    (postLiked cu.id pid db = false →
      applyOp (.toggle_post_like cu.id pid) db
        = some (201, { db with
            likes := db.likes ++ [mkPostLike db.next_like_id cu.id pid db.now]
            next_like_id := db.next_like_id + 1 }) ∧
      postLiked cu.id pid
        { db with
          likes := db.likes ++ [mkPostLike db.next_like_id cu.id pid db.now]
          next_like_id := db.next_like_id + 1 } = true) ∧
    (∀ st st' db' db'',
      applyOp (.toggle_post_like cu.id pid) db = some (st, db') →
      applyOp (.toggle_post_like cu.id pid) db' = some (st', db'') →
      likedStatesEq db'' db) := by
  have hqnew : postLikeMatch cu.id pid (mkPostLike db.next_like_id cu.id pid db.now) = true := by
    simp [postLikeMatch, mkPostLike]
  refine ⟨?_, ?_, ?_⟩
  · intro hl
    have hfs : (db.likes.find? (postLikeMatch cu.id pid)).isSome := by
      rw [List.find?_isSome]
      rw [postLiked, List.any_eq_true] at hl
      exact hl
    obtain ⟨l, hfl⟩ := Option.isSome_iff_exists.mp hfs
    refine ⟨(applyOp_toggle_post _ _ hcu).trans (toggle_post_like_found hp hfl), ?_⟩
    simp only [postLiked]
    exact any_eraseP_self (hU.1 cu.id pid)
  · intro hl
    have hfl : db.likes.find? (postLikeMatch cu.id pid) = none :=
      find?_none_of_any_false hl
    refine ⟨(applyOp_toggle_post _ _ hcu).trans (toggle_post_like_notfound hp hfl), ?_⟩
    simp only [postLiked, List.any_append, List.any_cons, List.any_nil, hqnew]
    simp
  · intro st st' db' db'' h1 h2
    rw [applyOp_toggle_post _ _ hcu] at h1
    rcases hfl : db.likes.find? (postLikeMatch cu.id pid) with _ | l
    · -- first call inserts, second call deletes the inserted row
      rw [toggle_post_like_notfound hp hfl] at h1
      simp only [Option.some.injEq, Prod.mk.injEq] at h1
      obtain ⟨rfl, rfl⟩ := h1
      have hcu2 : resolveUser cu.id
          { db with
            likes := db.likes ++ [mkPostLike db.next_like_id cu.id pid db.now]
            next_like_id := db.next_like_id + 1 } = some cu := hcu
      have hp2 : ({ db with
            likes := db.likes ++ [mkPostLike db.next_like_id cu.id pid db.now]
            next_like_id := db.next_like_id + 1 } : DB).posts.find?
          (fun p => p.id == pid) = some post := hp
      have hfl2 : (db.likes ++ [mkPostLike db.next_like_id cu.id pid db.now]).find?
            (postLikeMatch cu.id pid)
          = some (mkPostLike db.next_like_id cu.id pid db.now) := by
        rw [find?_append_none hfl]
        exact List.find?_cons_of_pos _ hqnew
      rw [applyOp_toggle_post _ _ hcu2, toggle_post_like_found hp2 hfl2] at h2
      simp only [Option.some.injEq, Prod.mk.injEq] at h2
      obtain ⟨rfl, rfl⟩ := h2
      apply likedStatesEq_of_likes_eq
      show (db.likes ++ [mkPostLike db.next_like_id cu.id pid db.now]).eraseP
          (postLikeMatch cu.id pid) = db.likes
      apply eraseP_append_singleton ?_ hqnew
      intro x hx
      have := List.find?_eq_none.mp hfl x hx
      simpa using this
    · -- first call deletes, second call inserts an equivalent row
      rw [toggle_post_like_found hp hfl] at h1
      simp only [Option.some.injEq, Prod.mk.injEq] at h1
      obtain ⟨rfl, rfl⟩ := h1
      have hcu2 : resolveUser cu.id
          { db with likes := db.likes.eraseP (postLikeMatch cu.id pid) } = some cu := hcu
      have hp2 : ({ db with
            likes := db.likes.eraseP (postLikeMatch cu.id pid) } : DB).posts.find?
          (fun p => p.id == pid) = some post := hp
      have hfl2 : ((db.likes.eraseP (postLikeMatch cu.id pid)).find?
          (postLikeMatch cu.id pid)) = none :=
        find?_none_of_any_false (any_eraseP_self (hU.1 cu.id pid))
      rw [applyOp_toggle_post _ _ hcu2, toggle_post_like_notfound hp2 hfl2] at h2
      simp only [Option.some.injEq, Prod.mk.injEq] at h2
      obtain ⟨rfl, rfl⟩ := h2
      have hlmem : postLiked cu.id pid db = true := by
        rw [postLiked, List.any_eq_true]
        exact ⟨l, List.mem_of_find?_eq_some hfl, List.find?_some hfl⟩
      constructor
      · intro u' p'
        show ((db.likes.eraseP (postLikeMatch cu.id pid)) ++
          [mkPostLike db.next_like_id cu.id pid db.now]).any (postLikeMatch u' p')
          = postLiked u' p' db
        rw [List.any_append]
        by_cases hsame : u' = cu.id ∧ p' = pid
        · obtain ⟨rfl, rfl⟩ := hsame
          simp [hqnew, hlmem]
        · rw [any_eraseP_of_imp (postLikeMatch_disj hsame)]
          simp [postLikeMatch_mk_false hsame, postLiked]
      · intro u' c'
        show ((db.likes.eraseP (postLikeMatch cu.id pid)) ++
          [mkPostLike db.next_like_id cu.id pid db.now]).any (commentLikeMatch u' c')
          = commentLiked u' c' db
        rw [List.any_append, any_eraseP_of_imp post_comment_disj]
        have hcross : commentLikeMatch u' c'
            (mkPostLike db.next_like_id cu.id pid db.now) = false := by
          simp [commentLikeMatch, mkPostLike]
        simp [hcross, commentLiked]

theorem c5_comment_aux (db : DB) (cu : User)
    (hcu : resolveUser cu.id db = some cu) (hU : likeAtMostOnce db)
    (cid : Nat) (comment : Comment)
    (hc : db.comments.find? (fun c => c.id == cid) = some comment) :
    (commentLiked cu.id cid db = true →
      applyOp (.toggle_comment_like cu.id cid) db
        = some (200, { db with likes := db.likes.eraseP (commentLikeMatch cu.id cid) }) ∧
      commentLiked cu.id cid
        { db with likes := db.likes.eraseP (commentLikeMatch cu.id cid) } = false) ∧
    (commentLiked cu.id cid db = false →
      applyOp (.toggle_comment_like cu.id cid) db
        = some (201, { db with
            likes := db.likes ++ [mkCommentLike db.next_like_id cu.id cid db.now]
            next_like_id := db.next_like_id + 1 }) ∧
      commentLiked cu.id cid
        { db with
          likes := db.likes ++ [mkCommentLike db.next_like_id cu.id cid db.now]
          next_like_id := db.next_like_id + 1 } = true) ∧
    (∀ st st' db' db'',
      applyOp (.toggle_comment_like cu.id cid) db = some (st, db') →
      applyOp (.toggle_comment_like cu.id cid) db' = some (st', db'') →
      likedStatesEq db'' db) := by
  have hqnew : commentLikeMatch cu.id cid (mkCommentLike db.next_like_id cu.id cid db.now)
      = true := by
    simp [commentLikeMatch, mkCommentLike]
  refine ⟨?_, ?_, ?_⟩
  · intro hl
    have hfs : (db.likes.find? (commentLikeMatch cu.id cid)).isSome := by
      rw [List.find?_isSome]
      rw [commentLiked, List.any_eq_true] at hl
      exact hl
    obtain ⟨l, hfl⟩ := Option.isSome_iff_exists.mp hfs
    refine ⟨(applyOp_toggle_comment _ _ hcu).trans (toggle_comment_like_found hc hfl), ?_⟩
    simp only [commentLiked]
    exact any_eraseP_self (hU.2 cu.id cid)
  · intro hl
    have hfl : db.likes.find? (commentLikeMatch cu.id cid) = none :=
      find?_none_of_any_false hl
    refine ⟨(applyOp_toggle_comment _ _ hcu).trans (toggle_comment_like_notfound hc hfl), ?_⟩
    simp only [commentLiked, List.any_append, List.any_cons, List.any_nil, hqnew]
    simp
  · intro st st' db' db'' h1 h2
    rw [applyOp_toggle_comment _ _ hcu] at h1
    rcases hfl : db.likes.find? (commentLikeMatch cu.id cid) with _ | l
    · rw [toggle_comment_like_notfound hc hfl] at h1
      simp only [Option.some.injEq, Prod.mk.injEq] at h1
      obtain ⟨rfl, rfl⟩ := h1
      have hcu2 : resolveUser cu.id
          { db with
            likes := db.likes ++ [mkCommentLike db.next_like_id cu.id cid db.now]
            next_like_id := db.next_like_id + 1 } = some cu := hcu
      have hc2 : ({ db with
            likes := db.likes ++ [mkCommentLike db.next_like_id cu.id cid db.now]
            next_like_id := db.next_like_id + 1 } : DB).comments.find?
          (fun c => c.id == cid) = some comment := hc
      have hfl2 : (db.likes ++ [mkCommentLike db.next_like_id cu.id cid db.now]).find?
            (commentLikeMatch cu.id cid)
          = some (mkCommentLike db.next_like_id cu.id cid db.now) := by
        rw [find?_append_none hfl]
        exact List.find?_cons_of_pos _ hqnew
      rw [applyOp_toggle_comment _ _ hcu2, toggle_comment_like_found hc2 hfl2] at h2
      simp only [Option.some.injEq, Prod.mk.injEq] at h2
      obtain ⟨rfl, rfl⟩ := h2
      apply likedStatesEq_of_likes_eq
      show (db.likes ++ [mkCommentLike db.next_like_id cu.id cid db.now]).eraseP
          (commentLikeMatch cu.id cid) = db.likes
      apply eraseP_append_singleton ?_ hqnew
      intro x hx
      have := List.find?_eq_none.mp hfl x hx
      simpa using this
    · rw [toggle_comment_like_found hc hfl] at h1
      simp only [Option.some.injEq, Prod.mk.injEq] at h1
      obtain ⟨rfl, rfl⟩ := h1
      have hcu2 : resolveUser cu.id
          { db with likes := db.likes.eraseP (commentLikeMatch cu.id cid) } = some cu := hcu
      have hc2 : ({ db with
            likes := db.likes.eraseP (commentLikeMatch cu.id cid) } : DB).comments.find?
          (fun c => c.id == cid) = some comment := hc
      have hfl2 : ((db.likes.eraseP (commentLikeMatch cu.id cid)).find?
          (commentLikeMatch cu.id cid)) = none :=
        find?_none_of_any_false (any_eraseP_self (hU.2 cu.id cid))
      rw [applyOp_toggle_comment _ _ hcu2, toggle_comment_like_notfound hc2 hfl2] at h2
      simp only [Option.some.injEq, Prod.mk.injEq] at h2
      obtain ⟨rfl, rfl⟩ := h2
      have hlmem : commentLiked cu.id cid db = true := by
        rw [commentLiked, List.any_eq_true]
        exact ⟨l, List.mem_of_find?_eq_some hfl, List.find?_some hfl⟩
      constructor
      · intro u' p'
        show ((db.likes.eraseP (commentLikeMatch cu.id cid)) ++
          [mkCommentLike db.next_like_id cu.id cid db.now]).any (postLikeMatch u' p')
          = postLiked u' p' db
        rw [List.any_append, any_eraseP_of_imp comment_post_disj]
        have hcross : postLikeMatch u' p'
            (mkCommentLike db.next_like_id cu.id cid db.now) = false := by
          simp [postLikeMatch, mkCommentLike]
        simp [hcross, postLiked]
      · intro u' c'
        show ((db.likes.eraseP (commentLikeMatch cu.id cid)) ++
          [mkCommentLike db.next_like_id cu.id cid db.now]).any (commentLikeMatch u' c')
          = commentLiked u' c' db
        rw [List.any_append]
        by_cases hsame : u' = cu.id ∧ c' = cid
        · obtain ⟨rfl, rfl⟩ := hsame
          simp [hqnew, hlmem]
        · rw [any_eraseP_of_imp (commentLikeMatch_disj hsame)]
          simp [commentLikeMatch_mk_false hsame, commentLiked]

/-! ## C5: like toggling -/

/-- C5: for an authenticated user and an existing target, the like endpoint
is a toggle: when a matching like row exists, the call removes that row and
returns 200 (the user no longer likes the target); otherwise it inserts one
and returns 201 (the user now likes the target).  Consequently two
consecutive calls by the same user on the same target leave every user's
like state on every post and comment exactly as it was.  (The uniqueness
hypothesis `likeAtMostOnce` holds in every reachable state.) -/
theorem c5_like_toggle (db : DB) (uid : Nat) (cu : User)
    (hcu : resolveUser uid db = some cu) (hU : likeAtMostOnce db) :
    (∀ pid post, db.posts.find? (fun p => p.id == pid) = some post →
      (postLiked uid pid db = true →
        applyOp (.toggle_post_like uid pid) db
          = some (200, { db with likes := db.likes.eraseP (postLikeMatch uid pid) }) ∧
        postLiked uid pid
          { db with likes := db.likes.eraseP (postLikeMatch uid pid) } = false) ∧
      (postLiked uid pid db = false →
        applyOp (.toggle_post_like uid pid) db
          = some (201, { db with
              likes := db.likes ++ [mkPostLike db.next_like_id uid pid db.now]
              next_like_id := db.next_like_id + 1 }) ∧
        postLiked uid pid
          { db with
            likes := db.likes ++ [mkPostLike db.next_like_id uid pid db.now]
            next_like_id := db.next_like_id + 1 } = true) ∧
      (∀ st st' db' db'',
        applyOp (.toggle_post_like uid pid) db = some (st, db') →
        applyOp (.toggle_post_like uid pid) db' = some (st', db'') →
        likedStatesEq db'' db)) ∧
    (∀ cid comment, db.comments.find? (fun c => c.id == cid) = some comment →
      (commentLiked uid cid db = true →
        applyOp (.toggle_comment_like uid cid) db
          = some (200, { db with likes := db.likes.eraseP (commentLikeMatch uid cid) }) ∧
        commentLiked uid cid
          { db with likes := db.likes.eraseP (commentLikeMatch uid cid) } = false) ∧
      (commentLiked uid cid db = false →
        applyOp (.toggle_comment_like uid cid) db
          = some (201, { db with
              likes := db.likes ++ [mkCommentLike db.next_like_id uid cid db.now]
              next_like_id := db.next_like_id + 1 }) ∧
        commentLiked uid cid
          { db with
            likes := db.likes ++ [mkCommentLike db.next_like_id uid cid db.now]
            next_like_id := db.next_like_id + 1 } = true) ∧
      (∀ st st' db' db'',
        applyOp (.toggle_comment_like uid cid) db = some (st, db') →
        applyOp (.toggle_comment_like uid cid) db' = some (st', db'') →
        likedStatesEq db'' db)) := by
  have hid : cu.id = uid := resolveUser_id hcu
  subst hid
  exact ⟨fun pid post hp => c5_post_aux db cu hcu hU pid post hp,
         fun cid c hc => c5_comment_aux db cu hcu hU cid c hc⟩

theorem c5_like_toggle_witness :
    applyOp (.toggle_post_like 3 1) dbW
      = some (201, { dbW with
          likes := dbW.likes ++ [mkPostLike dbW.next_like_id 3 1 dbW.now]
          next_like_id := dbW.next_like_id + 1 }) ∧
    postLiked 3 1 { dbW with
        likes := dbW.likes ++ [mkPostLike dbW.next_like_id 3 1 dbW.now]
        next_like_id := dbW.next_like_id + 1 } = true :=
  ((c5_like_toggle dbW 3
      { id := 3, username := ("carol".toList), email := ("c@x".toList),
        password_hash := ("pw".toList), is_admin := false, created_at := 0 }
      (by decide) ⟨fun u p => by simp [dbW], fun u c => by simp [dbW]⟩).1 1
      { id := 1, title := ("hi".toList), content := ("z".toList), user_id := 2,
        created_at := 5, updated_at := 5 }
      (by decide)).2.1 (by decide)

/-! ## Invariant preservation machinery (C3, C4) -/

theorem LikesInv_sublist {l' l : List Like} (h : l'.Sublist l) (hI : LikesInv l) :
    LikesInv l' := by
  obtain ⟨h1, h2, h3⟩ := hI
  refine ⟨?_, fun u p => le_trans (h.countP_le _) (h2 u p),
    fun u c => le_trans (h.countP_le _) (h3 u c)⟩
  rw [List.all_eq_true] at h1 ⊢
  exact fun x hx => h1 x (h.subset hx)

theorem LikesInv_append_post {ls : List Like} {i u p t : Nat} (hI : LikesInv ls)
    (hnone : ls.find? (postLikeMatch u p) = none) :
    LikesInv (ls ++ [mkPostLike i u p t]) := by
  obtain ⟨h1, h2, h3⟩ := hI
  refine ⟨?_, ?_, ?_⟩
  · rw [List.all_append, h1]
    simp [likeTargetOk, mkPostLike]
  · intro u' p'
    rw [List.countP_append]
    by_cases hsame : u' = u ∧ p' = p
    · obtain ⟨rfl, rfl⟩ := hsame
      have h0 : ls.countP (postLikeMatch u' p') = 0 := by
        rw [List.countP_eq_zero]
        exact List.find?_eq_none.mp hnone
      have hq : postLikeMatch u' p' (mkPostLike i u' p' t) = true := by
        simp [postLikeMatch, mkPostLike]
      simp [h0, List.countP_cons, hq]
    · have hq : postLikeMatch u' p' (mkPostLike i u p t) = false :=
        postLikeMatch_mk_false hsame
      simp only [List.countP_cons, List.countP_nil, hq, if_neg]
      simpa using h2 u' p'
  · intro u' c'
    rw [List.countP_append]
    have hq : commentLikeMatch u' c' (mkPostLike i u p t) = false := by
      simp [commentLikeMatch, mkPostLike]
    simp only [List.countP_cons, List.countP_nil, hq, if_neg]
    simpa using h3 u' c'

theorem LikesInv_append_comment {ls : List Like} {i u c t : Nat} (hI : LikesInv ls)
    (hnone : ls.find? (commentLikeMatch u c) = none) :
    LikesInv (ls ++ [mkCommentLike i u c t]) := by
  obtain ⟨h1, h2, h3⟩ := hI
  refine ⟨?_, ?_, ?_⟩
  · rw [List.all_append, h1]
    simp [likeTargetOk, mkCommentLike]
  · intro u' p'
    rw [List.countP_append]
    have hq : postLikeMatch u' p' (mkCommentLike i u c t) = false := by
      simp [postLikeMatch, mkCommentLike]
    simp only [List.countP_cons, List.countP_nil, hq, if_neg]
    simpa using h2 u' p'
  · intro u' c'
    rw [List.countP_append]
    by_cases hsame : u' = u ∧ c' = c
    · obtain ⟨rfl, rfl⟩ := hsame
      have h0 : ls.countP (commentLikeMatch u' c') = 0 := by
        rw [List.countP_eq_zero]
        exact List.find?_eq_none.mp hnone
      have hq : commentLikeMatch u' c' (mkCommentLike i u' c' t) = true := by
        simp [commentLikeMatch, mkCommentLike]
      simp [h0, List.countP_cons, hq]
    · have hq : commentLikeMatch u' c' (mkCommentLike i u c t) = false :=
        commentLikeMatch_mk_false hsame
      simp only [List.countP_cons, List.countP_nil, hq, if_neg]
      simpa using h3 u' c'

theorem likes_sub_register {d : Option Body} {db : DB} {st : Nat} {db' : DB}
    (h : register d db = some (st, db')) : db'.likes.Sublist db.likes := by
  unfold register at h
  repeat' split at h
  all_goals
    first
      | exact Option.noConfusion h
      | (simp only [Option.some.injEq, Prod.mk.injEq] at h
         obtain ⟨-, rfl⟩ := h
         first
           | exact List.Sublist.refl _
           | apply List.filter_sublist)

theorem likes_sub_login {d : Option Body} {db : DB} {st : Nat} {db' : DB}
    (h : login d db = some (st, db')) : db'.likes.Sublist db.likes := by
  unfold login at h
  repeat' split at h
  all_goals
    first
      | exact Option.noConfusion h
      | (simp only [Option.some.injEq, Prod.mk.injEq] at h
         obtain ⟨-, rfl⟩ := h
         exact List.Sublist.refl _)

theorem likes_sub_delete_user {cu : User} {target : Nat} {db : DB} {st : Nat} {db' : DB}
    (h : delete_user cu target db = some (st, db')) : db'.likes.Sublist db.likes := by
  unfold delete_user cascadeDeleteUser at h
  repeat' split at h
  all_goals
    first
      | exact Option.noConfusion h
      | (simp only [Option.some.injEq, Prod.mk.injEq] at h
         obtain ⟨-, rfl⟩ := h
         first
           | exact List.Sublist.refl _
           | apply List.filter_sublist)

theorem likes_sub_update_user {cu : User} {target : Nat} {d : Option Body} {db : DB}
    {st : Nat} {db' : DB}
    (h : update_user cu target d db = some (st, db')) : db'.likes.Sublist db.likes := by
  unfold update_user uu_emailStep uu_adminStep uu_commit at h
  repeat' split at h
  all_goals
    first
      | exact Option.noConfusion h
      | (simp only [Option.some.injEq, Prod.mk.injEq] at h
         obtain ⟨-, rfl⟩ := h
         exact List.Sublist.refl _)

theorem likes_sub_create_post {cu : User} {d : Option Body} {db : DB} {st : Nat} {db' : DB}
    (h : create_post cu d db = some (st, db')) : db'.likes.Sublist db.likes := by
  unfold create_post at h
  repeat' split at h
  all_goals
    first
      | exact Option.noConfusion h
      | (simp only [Option.some.injEq, Prod.mk.injEq] at h
         obtain ⟨-, rfl⟩ := h
         exact List.Sublist.refl _)

theorem likes_sub_update_post {cu : User} {pid : Nat} {d : Option Body} {db : DB}
    {st : Nat} {db' : DB}
    (h : update_post cu pid d db = some (st, db')) : db'.likes.Sublist db.likes := by
  unfold update_post at h
  repeat' split at h
  all_goals
    first
      | exact Option.noConfusion h
      | (simp only [Option.some.injEq, Prod.mk.injEq] at h
         obtain ⟨-, rfl⟩ := h
         exact List.Sublist.refl _)

theorem likes_sub_delete_post {cu : User} {pid : Nat} {db : DB} {st : Nat} {db' : DB}
    (h : delete_post cu pid db = some (st, db')) : db'.likes.Sublist db.likes := by
  unfold delete_post at h
  repeat' split at h
  all_goals
    first
      | exact Option.noConfusion h
      | (simp only [Option.some.injEq, Prod.mk.injEq] at h
         obtain ⟨-, rfl⟩ := h
         first
           | exact List.Sublist.refl _
           | apply List.filter_sublist)

theorem likes_sub_create_comment {cu : User} {pid : Nat} {d : Option Body} {db : DB}
    {st : Nat} {db' : DB}
    (h : create_comment cu pid d db = some (st, db')) : db'.likes.Sublist db.likes := by
  unfold create_comment at h
  repeat' split at h
  all_goals
    first
      | exact Option.noConfusion h
      | (simp only [Option.some.injEq, Prod.mk.injEq] at h
         obtain ⟨-, rfl⟩ := h
         exact List.Sublist.refl _)

theorem likes_sub_update_comment {cu : User} {cid : Nat} {d : Option Body} {db : DB}
    {st : Nat} {db' : DB}
    (h : update_comment cu cid d db = some (st, db')) : db'.likes.Sublist db.likes := by
  unfold update_comment at h
  repeat' split at h
  all_goals
    first
      | exact Option.noConfusion h
      | (simp only [Option.some.injEq, Prod.mk.injEq] at h
         obtain ⟨-, rfl⟩ := h
         exact List.Sublist.refl _)

theorem likes_sub_delete_comment {cu : User} {cid : Nat} {db : DB} {st : Nat} {db' : DB}
    (h : delete_comment cu cid db = some (st, db')) : db'.likes.Sublist db.likes := by
  unfold delete_comment at h
  repeat' split at h
  all_goals
    first
      | exact Option.noConfusion h
      | (simp only [Option.some.injEq, Prod.mk.injEq] at h
         obtain ⟨-, rfl⟩ := h
         first
           | exact List.Sublist.refl _
           | apply List.filter_sublist)

theorem likes_sub_update_own_profile {cu : User} {d : Option Body} {db : DB}
    {st : Nat} {db' : DB}
    (h : update_own_profile cu d db = some (st, db')) : db'.likes.Sublist db.likes := by
  unfold update_own_profile up_emailStep up_commit at h
  repeat' split at h
  all_goals
    first
      | exact Option.noConfusion h
      | (simp only [Option.some.injEq, Prod.mk.injEq] at h
         obtain ⟨-, rfl⟩ := h
         exact List.Sublist.refl _)

theorem likes_sub_update_password {cu : User} {d : Option Body} {db : DB}
    {st : Nat} {db' : DB}
    (h : update_password cu d db = some (st, db')) : db'.likes.Sublist db.likes := by
  unfold update_password at h
  repeat' split at h
  all_goals
    first
      | exact Option.noConfusion h
      | (simp only [Option.some.injEq, Prod.mk.injEq] at h
         obtain ⟨-, rfl⟩ := h
         exact List.Sublist.refl _)

theorem applyOp_LikesInv {op : Op} {db : DB} {st : Nat} {db' : DB}
    (h : applyOp op db = some (st, db')) (hI : LikesInv db.likes) : LikesInv db'.likes := by
  cases op with
  | register d => exact LikesInv_sublist (likes_sub_register h) hI
  | login d => exact LikesInv_sublist (likes_sub_login h) hI
  | delete_user uid target =>
    simp only [applyOp] at h
    split at h
    · simp only [Option.some.injEq, Prod.mk.injEq] at h
      obtain ⟨-, rfl⟩ := h; exact hI
    · split at h
      · simp only [Option.some.injEq, Prod.mk.injEq] at h
        obtain ⟨-, rfl⟩ := h; exact hI
      · exact LikesInv_sublist (likes_sub_delete_user h) hI
  | update_user uid target d =>
    simp only [applyOp] at h
    split at h
    · simp only [Option.some.injEq, Prod.mk.injEq] at h
      obtain ⟨-, rfl⟩ := h; exact hI
    · split at h
      · simp only [Option.some.injEq, Prod.mk.injEq] at h
        obtain ⟨-, rfl⟩ := h; exact hI
      · exact LikesInv_sublist (likes_sub_update_user h) hI
  | create_post uid d =>
    simp only [applyOp] at h
    split at h
    · simp only [Option.some.injEq, Prod.mk.injEq] at h
      obtain ⟨-, rfl⟩ := h; exact hI
    · exact LikesInv_sublist (likes_sub_create_post h) hI
  | update_post uid pid d =>
    simp only [applyOp] at h
    split at h
    · simp only [Option.some.injEq, Prod.mk.injEq] at h
      obtain ⟨-, rfl⟩ := h; exact hI
    · exact LikesInv_sublist (likes_sub_update_post h) hI
  | delete_post uid pid =>
    simp only [applyOp] at h
    split at h
    · simp only [Option.some.injEq, Prod.mk.injEq] at h
      obtain ⟨-, rfl⟩ := h; exact hI
    · exact LikesInv_sublist (likes_sub_delete_post h) hI
  | create_comment uid pid d =>
    simp only [applyOp] at h
    split at h
    · simp only [Option.some.injEq, Prod.mk.injEq] at h
      obtain ⟨-, rfl⟩ := h; exact hI
    · exact LikesInv_sublist (likes_sub_create_comment h) hI
  | update_comment uid cid d =>
    simp only [applyOp] at h
    split at h
    · simp only [Option.some.injEq, Prod.mk.injEq] at h
      obtain ⟨-, rfl⟩ := h; exact hI
    · exact LikesInv_sublist (likes_sub_update_comment h) hI
  | delete_comment uid cid =>
    simp only [applyOp] at h
    split at h
    · simp only [Option.some.injEq, Prod.mk.injEq] at h
      obtain ⟨-, rfl⟩ := h; exact hI
    · exact LikesInv_sublist (likes_sub_delete_comment h) hI
  | toggle_post_like uid pid =>
    simp only [applyOp] at h
    split at h
    · simp only [Option.some.injEq, Prod.mk.injEq] at h
      obtain ⟨-, rfl⟩ := h; exact hI
    · next cu _ =>
      rcases hp : db.posts.find? (fun p => p.id == pid) with _ | post
      · unfold toggle_post_like at h
        rw [hp] at h
        simp only [Option.some.injEq, Prod.mk.injEq] at h
        obtain ⟨-, rfl⟩ := h; exact hI
      · rcases hfind : db.likes.find? (postLikeMatch cu.id pid) with _ | l
        · rw [toggle_post_like_notfound hp hfind] at h
          simp only [Option.some.injEq, Prod.mk.injEq] at h
          obtain ⟨-, rfl⟩ := h
          exact LikesInv_append_post hI hfind
        · rw [toggle_post_like_found hp hfind] at h
          simp only [Option.some.injEq, Prod.mk.injEq] at h
          obtain ⟨-, rfl⟩ := h
          exact LikesInv_sublist (List.eraseP_sublist _) hI
  | toggle_comment_like uid cid =>
    simp only [applyOp] at h
    split at h
    · simp only [Option.some.injEq, Prod.mk.injEq] at h
      obtain ⟨-, rfl⟩ := h; exact hI
    · next cu _ =>
      rcases hc : db.comments.find? (fun c => c.id == cid) with _ | comment
      · unfold toggle_comment_like at h
        rw [hc] at h
        simp only [Option.some.injEq, Prod.mk.injEq] at h
        obtain ⟨-, rfl⟩ := h; exact hI
      · rcases hfind : db.likes.find? (commentLikeMatch cu.id cid) with _ | l
        · rw [toggle_comment_like_notfound hc hfind] at h
          simp only [Option.some.injEq, Prod.mk.injEq] at h
          obtain ⟨-, rfl⟩ := h
          exact LikesInv_append_comment hI hfind
        · rw [toggle_comment_like_found hc hfind] at h
          simp only [Option.some.injEq, Prod.mk.injEq] at h
          obtain ⟨-, rfl⟩ := h
          exact LikesInv_sublist (List.eraseP_sublist _) hI
  | update_own_profile uid d =>
    simp only [applyOp] at h
    split at h
    · simp only [Option.some.injEq, Prod.mk.injEq] at h
      obtain ⟨-, rfl⟩ := h; exact hI
    · exact LikesInv_sublist (likes_sub_update_own_profile h) hI
  | update_password uid d =>
    simp only [applyOp] at h
    split at h
    · simp only [Option.some.injEq, Prod.mk.injEq] at h
      obtain ⟨-, rfl⟩ := h; exact hI
    · exact LikesInv_sublist (likes_sub_update_password h) hI

theorem reachable_LikesInv {db : DB} (h : Reachable db) : LikesInv db.likes := by
  induction h with
  | init =>
    refine ⟨rfl, fun u p => ?_, fun u c => ?_⟩ <;> simp [init_db]
  | step op db db' st _ happ ih => exact applyOp_LikesInv happ ih

/-! ## C3, C4: like-table invariants -/

/-- C3: in every database state reachable from the seeded initial state by
API operations, every Like row has exactly one of `post_id` / `comment_id`
set — the two toggle handlers only ever insert rows of that shape, and
every other operation only keeps or deletes like rows. -/
theorem c3_like_target_xor (db : DB) (h : Reachable db) : likeXorOk db :=
  (reachable_LikesInv h).1

theorem c3_like_target_xor_witness : likeXorOk init_db :=
  c3_like_target_xor init_db Reachable.init

/-- C4: in every reachable database state, a given user has at most one Like
row on a given post and at most one on a given comment: the toggle handlers
insert only after finding no matching row, and every other operation only
keeps or deletes like rows. -/
theorem c4_like_at_most_once (db : DB) (h : Reachable db) : likeAtMostOnce db :=
  (reachable_LikesInv h).2

theorem c4_like_at_most_once_witness : likeAtMostOnce init_db :=
  c4_like_at_most_once init_db Reachable.init

/-! ## C9: atomicity on error -/

theorem err_register {d : Option Body} {db : DB} {st : Nat} {db' : DB}
    (h : register d db = some (st, db')) (hs : st < 200 ∨ 300 ≤ st) : db' = db := by
  unfold register at h
  repeat' split at h
  all_goals first
    | exact Option.noConfusion h
    | (simp only [Option.some.injEq, Prod.mk.injEq] at h
       obtain ⟨rfl, rfl⟩ := h
       first
         | rfl
         | (rcases hs with hs | hs <;> omega))

theorem err_login {d : Option Body} {db : DB} {st : Nat} {db' : DB}
    (h : login d db = some (st, db')) (hs : st < 200 ∨ 300 ≤ st) : db' = db := by
  unfold login at h
  repeat' split at h
  all_goals first
    | exact Option.noConfusion h
    | (simp only [Option.some.injEq, Prod.mk.injEq] at h
       obtain ⟨rfl, rfl⟩ := h
       first
         | rfl
         | (rcases hs with hs | hs <;> omega))

theorem err_delete_user {cu : User} {target : Nat} {db : DB} {st : Nat} {db' : DB}
    (h : delete_user cu target db = some (st, db')) (hs : st < 200 ∨ 300 ≤ st) :
    db' = db := by
  unfold delete_user at h
  repeat' split at h
  all_goals first
    | exact Option.noConfusion h
    | (simp only [Option.some.injEq, Prod.mk.injEq] at h
       obtain ⟨rfl, rfl⟩ := h
       first
         | rfl
         | (rcases hs with hs | hs <;> omega))

theorem err_update_user {cu : User} {target : Nat} {d : Option Body} {db : DB}
    {st : Nat} {db' : DB}
    (h : update_user cu target d db = some (st, db')) (hs : st < 200 ∨ 300 ≤ st) :
    db' = db := by
  unfold update_user uu_emailStep uu_adminStep uu_commit at h
  repeat' split at h
  all_goals first
    | exact Option.noConfusion h
    | (simp only [Option.some.injEq, Prod.mk.injEq] at h
       obtain ⟨rfl, rfl⟩ := h
       first
         | rfl
         | (rcases hs with hs | hs <;> omega))

theorem err_create_post {cu : User} {d : Option Body} {db : DB} {st : Nat} {db' : DB}
    (h : create_post cu d db = some (st, db')) (hs : st < 200 ∨ 300 ≤ st) : db' = db := by
  unfold create_post at h
  repeat' split at h
  all_goals first
    | exact Option.noConfusion h
    | (simp only [Option.some.injEq, Prod.mk.injEq] at h
       obtain ⟨rfl, rfl⟩ := h
       first
         | rfl
         | (rcases hs with hs | hs <;> omega))

theorem err_update_post {cu : User} {pid : Nat} {d : Option Body} {db : DB}
    {st : Nat} {db' : DB}
    (h : update_post cu pid d db = some (st, db')) (hs : st < 200 ∨ 300 ≤ st) :
    db' = db := by
  unfold update_post at h
  repeat' split at h
  all_goals first
    | exact Option.noConfusion h
    | (simp only [Option.some.injEq, Prod.mk.injEq] at h
       obtain ⟨rfl, rfl⟩ := h
       first
         | rfl
         | (rcases hs with hs | hs <;> omega))

theorem err_delete_post {cu : User} {pid : Nat} {db : DB} {st : Nat} {db' : DB}
    (h : delete_post cu pid db = some (st, db')) (hs : st < 200 ∨ 300 ≤ st) :
    db' = db := by
  unfold delete_post at h
  repeat' split at h
  all_goals first
    | exact Option.noConfusion h
    | (simp only [Option.some.injEq, Prod.mk.injEq] at h
       obtain ⟨rfl, rfl⟩ := h
       first
         | rfl
         | (rcases hs with hs | hs <;> omega))

theorem err_create_comment {cu : User} {pid : Nat} {d : Option Body} {db : DB}
    {st : Nat} {db' : DB}
    (h : create_comment cu pid d db = some (st, db')) (hs : st < 200 ∨ 300 ≤ st) :
    db' = db := by
  unfold create_comment at h
  repeat' split at h
  all_goals first
    | exact Option.noConfusion h
    | (simp only [Option.some.injEq, Prod.mk.injEq] at h
       obtain ⟨rfl, rfl⟩ := h
       first
         | rfl
         | (rcases hs with hs | hs <;> omega))

theorem err_update_comment {cu : User} {cid : Nat} {d : Option Body} {db : DB}
    {st : Nat} {db' : DB}
    (h : update_comment cu cid d db = some (st, db')) (hs : st < 200 ∨ 300 ≤ st) :
    db' = db := by
  unfold update_comment at h
  repeat' split at h
  all_goals first
    | exact Option.noConfusion h
    | (simp only [Option.some.injEq, Prod.mk.injEq] at h
       obtain ⟨rfl, rfl⟩ := h
       first
         | rfl
         | (rcases hs with hs | hs <;> omega))

theorem err_delete_comment {cu : User} {cid : Nat} {db : DB} {st : Nat} {db' : DB}
    (h : delete_comment cu cid db = some (st, db')) (hs : st < 200 ∨ 300 ≤ st) :
    db' = db := by
  unfold delete_comment at h
  repeat' split at h
  all_goals first
    | exact Option.noConfusion h
    | (simp only [Option.some.injEq, Prod.mk.injEq] at h
       obtain ⟨rfl, rfl⟩ := h
       first
         | rfl
         | (rcases hs with hs | hs <;> omega))

theorem err_toggle_post_like {cu : User} {pid : Nat} {db : DB} {st : Nat} {db' : DB}
    (h : toggle_post_like cu pid db = some (st, db')) (hs : st < 200 ∨ 300 ≤ st) :
    db' = db := by
  unfold toggle_post_like at h
  repeat' split at h
  all_goals first
    | exact Option.noConfusion h
    | (simp only [Option.some.injEq, Prod.mk.injEq] at h
       obtain ⟨rfl, rfl⟩ := h
       first
         | rfl
         | (rcases hs with hs | hs <;> omega))

theorem err_toggle_comment_like {cu : User} {cid : Nat} {db : DB} {st : Nat} {db' : DB}
    (h : toggle_comment_like cu cid db = some (st, db')) (hs : st < 200 ∨ 300 ≤ st) :
    db' = db := by
  unfold toggle_comment_like at h
  repeat' split at h
  all_goals first
    | exact Option.noConfusion h
    | (simp only [Option.some.injEq, Prod.mk.injEq] at h
       obtain ⟨rfl, rfl⟩ := h
       first
         | rfl
         | (rcases hs with hs | hs <;> omega))

theorem err_update_own_profile {cu : User} {d : Option Body} {db : DB}
    {st : Nat} {db' : DB}
    (h : update_own_profile cu d db = some (st, db')) (hs : st < 200 ∨ 300 ≤ st) :
    db' = db := by
  unfold update_own_profile up_emailStep up_commit at h
  repeat' split at h
  all_goals first
    | exact Option.noConfusion h
    | (simp only [Option.some.injEq, Prod.mk.injEq] at h
       obtain ⟨rfl, rfl⟩ := h
       first
         | rfl
         | (rcases hs with hs | hs <;> omega))

theorem err_update_password {cu : User} {d : Option Body} {db : DB}
    {st : Nat} {db' : DB}
    (h : update_password cu d db = some (st, db')) (hs : st < 200 ∨ 300 ≤ st) :
    db' = db := by
  unfold update_password at h
  repeat' split at h
  all_goals first
    | exact Option.noConfusion h
    | (simp only [Option.some.injEq, Prod.mk.injEq] at h
       obtain ⟨rfl, rfl⟩ := h
       first
         | rfl
         | (rcases hs with hs | hs <;> omega))

/-- C9: every completed request is atomic on error — whenever an operation
returns a status outside 2xx, the persistent state is unchanged (no handler
commits before an error return; in particular admin user update commits
nothing when it answers 409 or 400). -/
theorem c9_error_atomicity (op : Op) (db : DB) (st : Nat) (db' : DB)
    (h : applyOp op db = some (st, db')) (hs : st < 200 ∨ 300 ≤ st) : db' = db := by
  cases op with
  | register d => exact err_register h hs
  | login d => exact err_login h hs
  | delete_user uid target =>
    simp only [applyOp] at h
    split at h
    · simp only [Option.some.injEq, Prod.mk.injEq] at h
      exact h.2.symm
    · split at h
      · simp only [Option.some.injEq, Prod.mk.injEq] at h
        exact h.2.symm
      · exact err_delete_user h hs
  | update_user uid target d =>
    simp only [applyOp] at h
    split at h
    · simp only [Option.some.injEq, Prod.mk.injEq] at h
      exact h.2.symm
    · split at h
      · simp only [Option.some.injEq, Prod.mk.injEq] at h
        exact h.2.symm
      · exact err_update_user h hs
  | create_post uid d =>
    simp only [applyOp] at h
    split at h
    · simp only [Option.some.injEq, Prod.mk.injEq] at h
      exact h.2.symm
    · exact err_create_post h hs
  | update_post uid pid d =>
    simp only [applyOp] at h
    split at h
    · simp only [Option.some.injEq, Prod.mk.injEq] at h
      exact h.2.symm
    · exact err_update_post h hs
  | delete_post uid pid =>
    simp only [applyOp] at h
    split at h
    · simp only [Option.some.injEq, Prod.mk.injEq] at h
      exact h.2.symm
    · exact err_delete_post h hs
  | create_comment uid pid d =>
    simp only [applyOp] at h
    split at h
    · simp only [Option.some.injEq, Prod.mk.injEq] at h
      exact h.2.symm
    · exact err_create_comment h hs
  | update_comment uid cid d =>
    simp only [applyOp] at h
    split at h
    · simp only [Option.some.injEq, Prod.mk.injEq] at h
      exact h.2.symm
    · exact err_update_comment h hs
  | delete_comment uid cid =>
    simp only [applyOp] at h
    split at h
    · simp only [Option.some.injEq, Prod.mk.injEq] at h
      exact h.2.symm
    · exact err_delete_comment h hs
  | toggle_post_like uid pid =>
    simp only [applyOp] at h
    split at h
    · simp only [Option.some.injEq, Prod.mk.injEq] at h
      exact h.2.symm
    · exact err_toggle_post_like h hs
  | toggle_comment_like uid cid =>
    simp only [applyOp] at h
    split at h
    · simp only [Option.some.injEq, Prod.mk.injEq] at h
      exact h.2.symm
    · exact err_toggle_comment_like h hs
  | update_own_profile uid d =>
    simp only [applyOp] at h
    split at h
    · simp only [Option.some.injEq, Prod.mk.injEq] at h
      exact h.2.symm
    · exact err_update_own_profile h hs
  | update_password uid d =>
    simp only [applyOp] at h
    split at h
    · simp only [Option.some.injEq, Prod.mk.injEq] at h
      exact h.2.symm
    · exact err_update_password h hs

theorem c9_error_atomicity_witness :
    applyOp (.update_user 1 1 (some bodyC2)) dbW = some (409, dbW) ∧ dbW = dbW :=
  ⟨by decide,
   c9_error_atomicity (.update_user 1 1 (some bodyC2)) dbW 409 dbW (by decide)
     (Or.inr (by omega))⟩

/-! ## C1: owner-or-admin authorization on posts and comments -/

theorem any_filter_not {α} {q : α → Bool} {l : List α} :
    (l.filter (fun x => !(q x))).any q = false := by
  rcases h : (l.filter (fun x => !(q x))).any q with _ | _
  · rfl
  · rw [List.any_eq_true] at h
    obtain ⟨x, hx, hq⟩ := h
    rw [List.mem_filter] at hx
    simp [hq] at hx


theorem update_post_eq {cu : User} {pid : Nat} {d : Option Body} {db : DB} {post : Post}
    (hp : db.posts.find? (fun p => p.id == pid) = some post) :
    update_post cu pid d db =
      if post.user_id != cu.id && !cu.is_admin then some (403, db)
      else
        match d with
        | none => none
        | some data =>
          some (200, { db with posts := db.posts.map (fun p =>
            if p.id == pid then
              { post with title := data.title.getD post.title,
                          content := data.content.getD post.content,
                          updated_at := db.now }
            else p) }) := by
  unfold update_post
  rw [hp]
  rcases d with _ | data
  · rfl
  · rcases ht : data.title with _ | t <;> rcases hcnt : data.content with _ | c <;>
      simp [ht, hcnt]

theorem delete_post_eq {cu : User} {pid : Nat} {db : DB} {post : Post}
    (hp : db.posts.find? (fun p => p.id == pid) = some post) :
    delete_post cu pid db =
      if post.user_id != cu.id && !cu.is_admin then some (403, db)
      else
        some (200, { db with
          posts := db.posts.filter (fun p => !(p.id == pid))
          comments := db.comments.filter (fun c => !(c.post_id == pid))
          likes := db.likes.filter (fun l =>
            !((l.post_id == some pid && l.comment_id == none)
              || ((match l.comment_id with
                   | some c => ((db.comments.filter (fun c => c.post_id == pid)).map
                       (fun c => c.id)).contains c
                   | none => false) && l.post_id == none))) }) := by
  unfold delete_post
  rw [hp]

theorem update_comment_eq {cu : User} {cid : Nat} {d : Option Body} {db : DB}
    {comment : Comment}
    (hc : db.comments.find? (fun c => c.id == cid) = some comment) :
    update_comment cu cid d db =
      if comment.user_id != cu.id && !cu.is_admin then some (403, db)
      else
        match d with
        | none => some (400, db)
        | some data =>
          if !strTruthy data.content then some (400, db)
          else
            some (200, { db with comments := db.comments.map (fun c =>
              if c.id == cid then
                { comment with content := data.content.getD [], updated_at := db.now }
              else c) }) := by
  unfold update_comment
  rw [hc]

theorem delete_comment_eq {cu : User} {cid : Nat} {db : DB} {comment : Comment}
    (hc : db.comments.find? (fun c => c.id == cid) = some comment) :
    delete_comment cu cid db =
      if comment.user_id != cu.id && !cu.is_admin then some (403, db)
      else
        some (200, { db with
          comments := db.comments.filter (fun c => !(c.id == cid))
          likes := db.likes.filter (fun l =>
            !(l.comment_id == some cid && l.post_id == none)) }) := by
  unfold delete_comment
  rw [hc]

theorem update_post_eq_some {cu : User} {pid : Nat} {data : Body} {db : DB} {post : Post}
    (hp : db.posts.find? (fun p => p.id == pid) = some post) :
    update_post cu pid (some data) db =
      if post.user_id != cu.id && !cu.is_admin then some (403, db)
      else
        some (200, { db with posts := db.posts.map (fun p =>
          if p.id == pid then
            { post with title := data.title.getD post.title,
                        content := data.content.getD post.content,
                        updated_at := db.now }
          else p) }) := by
  rw [update_post_eq hp]

theorem update_comment_eq_some {cu : User} {cid : Nat} {data : Body} {db : DB}
    {comment : Comment}
    (hc : db.comments.find? (fun c => c.id == cid) = some comment) :
    update_comment cu cid (some data) db =
      if comment.user_id != cu.id && !cu.is_admin then some (403, db)
      else if !strTruthy data.content then some (400, db)
      else
        some (200, { db with comments := db.comments.map (fun c =>
          if c.id == cid then
            { comment with content := data.content.getD [], updated_at := db.now }
          else c) }) := by
  rw [update_comment_eq hc]

/-- C1: for every authenticated update/delete on an existing post or comment,
a requester who is neither the row's author nor an admin gets 403 with the
state unchanged; the author or an admin gets the mutation applied (the new
field values stored for updates — given a body, with non-empty content for
comment update as the handler demands — and the row gone for deletes) with
status 200. -/
theorem c1_owner_or_admin (db : DB) (uid : Nat) (cu : User)
    (hcu : resolveUser uid db = some cu) :
    (∀ pid post, db.posts.find? (fun p => p.id == pid) = some post →
      (¬(post.user_id = cu.id ∨ cu.is_admin = true) →
        (∀ d, applyOp (.update_post uid pid d) db = some (403, db)) ∧
        applyOp (.delete_post uid pid) db = some (403, db)) ∧
      ((post.user_id = cu.id ∨ cu.is_admin = true) →
        (∀ d, applyOp (.update_post uid pid (some d)) db
            = some (200, { db with posts := db.posts.map (fun p =>
                if p.id == pid then
                  { post with title := d.title.getD post.title,
                              content := d.content.getD post.content,
                              updated_at := db.now }
                else p) })) ∧
        (applyOp (.delete_post uid pid) db).map
            (fun r => (r.1, r.2.posts.any (fun p => p.id == pid)))
          = some (200, false))) ∧
    (∀ cid comment, db.comments.find? (fun c => c.id == cid) = some comment →
      (¬(comment.user_id = cu.id ∨ cu.is_admin = true) →
        (∀ d, applyOp (.update_comment uid cid d) db = some (403, db)) ∧
        applyOp (.delete_comment uid cid) db = some (403, db)) ∧
      ((comment.user_id = cu.id ∨ cu.is_admin = true) →
        (∀ d, strTruthy d.content = true →
          applyOp (.update_comment uid cid (some d)) db
            = some (200, { db with comments := db.comments.map (fun c =>
                if c.id == cid then
                  { comment with content := d.content.getD [], updated_at := db.now }
                else c) })) ∧
        (applyOp (.delete_comment uid cid) db).map
            (fun r => (r.1, r.2.comments.any (fun c => c.id == cid)))
          = some (200, false))) := by
  constructor
  · intro pid post hp
    constructor
    · intro hna
      have h1 : post.user_id ≠ cu.id := fun he => hna (Or.inl he)
      have h2 : cu.is_admin = false := by
        rcases hb : cu.is_admin with _ | _
        · rfl
        · exact (hna (Or.inr hb)).elim
      have hbool : (post.user_id != cu.id && !cu.is_admin) = true := by
        simp [h1, h2]
      constructor
      · intro d
        simp only [applyOp, hcu]
        rw [update_post_eq hp, hbool]
        rfl
      · simp only [applyOp, hcu]
        rw [delete_post_eq hp, hbool]
        rfl
    · intro hauth
      have hbool : (post.user_id != cu.id && !cu.is_admin) = false := by
        rcases hauth with h | h <;> simp [h]
      constructor
      · intro d
        simp only [applyOp, hcu]
        rw [update_post_eq_some hp, hbool]
        rfl
      · simp only [applyOp, hcu]
        rw [delete_post_eq hp, hbool]
        simp [any_filter_not]
  · intro cid comment hc
    constructor
    · intro hna
      have h1 : comment.user_id ≠ cu.id := fun he => hna (Or.inl he)
      have h2 : cu.is_admin = false := by
        rcases hb : cu.is_admin with _ | _
        · rfl
        · exact (hna (Or.inr hb)).elim
      have hbool : (comment.user_id != cu.id && !cu.is_admin) = true := by
        simp [h1, h2]
      constructor
      · intro d
        simp only [applyOp, hcu]
        rw [update_comment_eq hc, hbool]
        rfl
      · simp only [applyOp, hcu]
        rw [delete_comment_eq hc, hbool]
        rfl
    · intro hauth
      have hbool : (comment.user_id != cu.id && !cu.is_admin) = false := by
        rcases hauth with h | h <;> simp [h]
      constructor
      · intro d hd
        have hneg : (!strTruthy d.content) = false := by simp [hd]
        simp only [applyOp, hcu]
        rw [update_comment_eq_some hc, hbool, hneg]
        rfl
      · simp only [applyOp, hcu]
        rw [delete_comment_eq hc, hbool]
        simp [any_filter_not]

theorem c1_owner_or_admin_witness :
    applyOp (.update_post 3 1 (some bodyT)) dbW = some (403, dbW) ∧
    applyOp (.delete_post 3 1) dbW = some (403, dbW) :=
  let h := ((c1_owner_or_admin dbW 3
    { id := 3, username := ("carol".toList), email := ("c@x".toList),
      password_hash := ("pw".toList), is_admin := false, created_at := 0 }
    (by decide)).1 1
    { id := 1, title := ("hi".toList), content := ("z".toList), user_id := 2,
      created_at := 5, updated_at := 5 }
    (by decide)).1 (by decide)
  ⟨h.1 (some bodyT), h.2⟩

/-! ## C2: admin self-lockout prevention -/

theorem uu_adminStep_own {cu user : User} {d : Body} {db : DB} {b : Bool}
    (hb : d.is_admin = some b) :
    uu_adminStep cu cu.id user d db = some (400, db) := by
  unfold uu_adminStep
  rw [hb]
  simp

theorem uu_emailStep_own_cases {cu user : User} {d : Body} {db : DB} {st : Nat}
    {db' : DB} {b : Bool} (hb : d.is_admin = some b)
    (h : uu_emailStep cu cu.id user d db = some (st, db')) :
    db' = db ∧ (st = 400 ∨ st = 409) := by
  unfold uu_emailStep at h
  rcases hem : d.email with _ | em
  · simp only [hem] at h
    rw [uu_adminStep_own hb] at h
    simp only [Option.some.injEq, Prod.mk.injEq] at h
    exact ⟨h.2.symm, Or.inl h.1.symm⟩
  · simp only [hem] at h
    rcases hex : db.users.find? (fun u => u.email == em) with _ | ex
    · simp only [hex] at h
      rw [uu_adminStep_own hb] at h
      simp only [Option.some.injEq, Prod.mk.injEq] at h
      exact ⟨h.2.symm, Or.inl h.1.symm⟩
    · simp only [hex] at h
      rcases hcond : (ex.id != cu.id) with _ | _
      · simp only [hcond, if_false, Bool.false_eq_true] at h
        rw [uu_adminStep_own hb] at h
        simp only [Option.some.injEq, Prod.mk.injEq] at h
        exact ⟨h.2.symm, Or.inl h.1.symm⟩
      · simp only [hcond, if_true] at h
        simp only [Option.some.injEq, Prod.mk.injEq] at h
        exact ⟨h.2.symm, Or.inr h.1.symm⟩

theorem uu_emailStep_own_noconflict {cu user : User} {d : Body} {db : DB} {b : Bool}
    (hb : d.is_admin = some b)
    (he : ∀ em ex, d.email = some em →
      db.users.find? (fun u => u.email == em) = some ex → ex.id = cu.id) :
    uu_emailStep cu cu.id user d db = some (400, db) := by
  unfold uu_emailStep
  split
  · next em heq =>
    split
    · next ex heq2 =>
      have hid := he em ex heq heq2
      have hcond : (ex.id != cu.id) = false := by simp [hid]
      rw [hcond]
      exact uu_adminStep_own hb
    · next heq2 => exact uu_adminStep_own hb
  · next heq => exact uu_adminStep_own hb

theorem update_user_own_cases {cu user : User} {d : Body} {db : DB} {st : Nat}
    {db' : DB} {b : Bool}
    (hfind : db.users.find? (fun u => u.id == cu.id) = some user)
    (hb : d.is_admin = some b)
    (h : update_user cu cu.id (some d) db = some (st, db')) :
    db' = db ∧ (st = 400 ∨ st = 409) := by
  unfold update_user at h
  rw [hfind] at h
  rcases hun : d.username with _ | un
  · simp only [hun] at h
    exact uu_emailStep_own_cases hb h
  · simp only [hun] at h
    rcases hex : db.users.find? (fun u => u.username == un) with _ | ex
    · simp only [hex] at h
      exact uu_emailStep_own_cases hb h
    · simp only [hex] at h
      rcases hcond : (ex.id != cu.id) with _ | _
      · simp only [hcond, if_false, Bool.false_eq_true] at h
        exact uu_emailStep_own_cases hb h
      · simp only [hcond, if_true] at h
        simp only [Option.some.injEq, Prod.mk.injEq] at h
        exact ⟨h.2.symm, Or.inr h.1.symm⟩

theorem update_user_eq_username {cu : User} {target : Nat} {user : User} {d : Body}
    {db : DB}
    (hfind : db.users.find? (fun u => u.id == target) = some user) :
    update_user cu target (some d) db =
      match d.username with
      | some un =>
        match db.users.find? (fun u => u.username == un) with
        | some existing =>
          if existing.id != target then some (409, db)
          else uu_emailStep cu target { user with username := un } d db
        | none => uu_emailStep cu target { user with username := un } d db
      | none => uu_emailStep cu target user d db := by
  unfold update_user
  rw [hfind]

theorem update_user_own_noconflict {cu user : User} {d : Body} {db : DB} {b : Bool}
    (hfind : db.users.find? (fun u => u.id == cu.id) = some user)
    (hb : d.is_admin = some b)
    (hu : ∀ un ex, d.username = some un →
      db.users.find? (fun u => u.username == un) = some ex → ex.id = cu.id)
    (he : ∀ em ex, d.email = some em →
      db.users.find? (fun u => u.email == em) = some ex → ex.id = cu.id) :
    update_user cu cu.id (some d) db = some (400, db) := by
  rw [update_user_eq_username hfind]
  split
  · next un heq =>
    split
    · next ex heq2 =>
      have hid := hu un ex heq heq2
      have hcond : (ex.id != cu.id) = false := by simp [hid]
      rw [hcond]
      exact uu_emailStep_own_noconflict hb he
    · next heq2 => exact uu_emailStep_own_noconflict hb he
  · next heq => exact uu_emailStep_own_noconflict hb he

/-- C2 counterexample: the claim "a PUT on /api/admin/users/<id> whose body
contains an is_admin field with id equal to the admin's own id returns 400"
fails when the body also carries a username already taken by another user:
the handler checks the username conflict first and returns 409 (here admin
user 1 sends is_admin alongside username "bob", taken by user 2). -/
theorem c2_counterexample :
    bodyC2.is_admin.isSome = true ∧
    applyOp (.update_user 1 1 (some bodyC2)) dbW = some (409, dbW) ∧
    409 ≠ 400 :=
  ⟨by decide, by decide, by decide⟩

/-- C2 (amended): a DELETE on the admin's own id returns 400 and deletes
nothing.  A PUT on the admin's own id whose body contains an is_admin field
never changes anything (it always ends in 400 or 409 with the state — and
hence the admin flag — untouched), and it returns 400 provided no
username/email in the body conflicts with a different user (a conflict is
answered 409 first). -/
theorem c2_self_lockout (db : DB) (uid : Nat) (cu : User) (d : Body)
    (hcu : resolveUser uid db = some cu) (hadm : cu.is_admin = true)
    (ha : d.is_admin.isSome = true) :
    applyOp (.delete_user uid uid) db = some (400, db) ∧
    (∀ st db', applyOp (.update_user uid uid (some d)) db = some (st, db') →
      db' = db ∧ (st = 400 ∨ st = 409)) ∧
    ((∀ un ex, d.username = some un →
        db.users.find? (fun u => u.username == un) = some ex → ex.id = uid) →
     (∀ em ex, d.email = some em →
        db.users.find? (fun u => u.email == em) = some ex → ex.id = uid) →
      applyOp (.update_user uid uid (some d)) db = some (400, db)) := by
  have hid : cu.id = uid := resolveUser_id hcu
  subst hid
  obtain ⟨b, hb⟩ := Option.isSome_iff_exists.mp ha
  have hnadm : (!cu.is_admin) = false := by simp [hadm]
  refine ⟨?_, ?_, ?_⟩
  · simp only [applyOp, hcu, hnadm, Bool.false_eq_true, if_false]
    simp [delete_user]
  · intro st db' h
    simp only [applyOp, hcu, hnadm, Bool.false_eq_true, if_false] at h
    exact update_user_own_cases hcu hb h
  · intro hu he
    simp only [applyOp, hcu, hnadm, Bool.false_eq_true, if_false]
    exact update_user_own_noconflict hcu hb hu he

theorem c2_self_lockout_witness :
    applyOp (.delete_user 1 1) dbW = some (400, dbW) ∧
    applyOp (.update_user 1 1 (some { is_admin := some false })) dbW
      = some (400, dbW) :=
  let h := c2_self_lockout dbW 1
    { id := 1, username := ("admin".toList), email := ("a@x".toList),
      password_hash := ("admin123".toList), is_admin := true, created_at := 0 }
    { is_admin := some false } (by decide) rfl rfl
  ⟨h.1, h.2.2 (fun un ex h1 _ => Option.noConfusion h1)
        (fun em ex h1 _ => Option.noConfusion h1)⟩

/-! ## C10: JSON-body presence guards -/

theorem uu_commit_isSome {target : Nat} {user : User} {d : Body} {db : DB} :
    (uu_commit target user d db).isSome = true := by
  unfold uu_commit
  repeat' split
  all_goals rfl

theorem uu_adminStep_isSome {cu : User} {target : Nat} {user : User} {d : Body}
    {db : DB} : (uu_adminStep cu target user d db).isSome = true := by
  unfold uu_adminStep
  repeat' split
  all_goals first | rfl | exact uu_commit_isSome

theorem uu_emailStep_isSome {cu : User} {target : Nat} {user : User} {d : Body}
    {db : DB} : (uu_emailStep cu target user d db).isSome = true := by
  unfold uu_emailStep
  repeat' split
  all_goals first | rfl | exact uu_adminStep_isSome

theorem update_user_isSome {cu : User} {target : Nat} {d : Body} {db : DB} :
    (update_user cu target (some d) db).isSome = true := by
  rcases hfind : db.users.find? (fun u => u.id == target) with _ | user
  · unfold update_user
    rw [hfind]
    rfl
  · rw [update_user_eq_username hfind]
    repeat' split
    all_goals first | rfl | exact uu_emailStep_isSome

theorem up_commit_isSome {cu cu' : User} {db : DB} :
    (up_commit cu cu' db).isSome = true := rfl

theorem up_emailStep_isSome {cu cu' : User} {d : Body} {db : DB} :
    (up_emailStep cu cu' d db).isSome = true := by
  unfold up_emailStep
  repeat' split
  all_goals first | rfl | exact up_commit_isSome

theorem update_own_profile_isSome {cu : User} {d : Body} {db : DB} :
    (update_own_profile cu (some d) db).isSome = true := by
  unfold update_own_profile
  repeat' split
  all_goals first | rfl | exact up_emailStep_isSome | simp_all

theorem update_post_isSome {cu : User} {pid : Nat} {d : Body} {db : DB} :
    (update_post cu pid (some d) db).isSome = true := by
  rcases hp : db.posts.find? (fun p => p.id == pid) with _ | post
  · unfold update_post
    rw [hp]
    rfl
  · rw [update_post_eq_some hp]
    split <;> rfl

/-- C10: the three update handlers that read the JSON body without a
presence guard (`update_post`, admin `update_user`, `update_own_profile`)
crash on a missing body once their earlier checks pass (the membership test
on `None` raises instead of returning 400), are total whenever a body is
present — while `register`, `login` and `create_post`, which guard the
body, answer 400 on a missing body. -/
theorem c10_body_guard (db : DB) (uid : Nat) (cu : User)
    (hcu : resolveUser uid db = some cu) :
    (∀ pid post, db.posts.find? (fun p => p.id == pid) = some post →
      (post.user_id = cu.id ∨ cu.is_admin = true) →
      applyOp (.update_post uid pid none) db = none) ∧
    (cu.is_admin = true →
      ∀ target user, db.users.find? (fun u => u.id == target) = some user →
        applyOp (.update_user uid target none) db = none) ∧
    applyOp (.update_own_profile uid none) db = none ∧
    (∀ pid d, (applyOp (.update_post uid pid (some d)) db).isSome = true) ∧
    (∀ target d, (applyOp (.update_user uid target (some d)) db).isSome = true) ∧
    (∀ d, (applyOp (.update_own_profile uid (some d)) db).isSome = true) ∧
    (∀ db2 : DB, applyOp (.register none) db2 = some (400, db2) ∧
      applyOp (.login none) db2 = some (400, db2)) ∧
    applyOp (.create_post uid none) db = some (400, db) := by
  refine ⟨?_, ?_, ?_, ?_, ?_, ?_, fun db2 => ⟨rfl, rfl⟩, ?_⟩
  · intro pid post hp hauth
    have hbool : (post.user_id != cu.id && !cu.is_admin) = false := by
      rcases hauth with h | h <;> simp [h]
    simp only [applyOp, hcu]
    rw [update_post_eq hp, hbool]
    rfl
  · intro hadm target user hfind
    have hnadm : (!cu.is_admin) = false := by simp [hadm]
    simp only [applyOp, hcu, hnadm, Bool.false_eq_true, if_false]
    unfold update_user
    rw [hfind]
  · simp only [applyOp, hcu]
    rfl
  · intro pid d
    simp only [applyOp, hcu]
    exact update_post_isSome
  · intro target d
    simp only [applyOp, hcu]
    rcases hadm : cu.is_admin with _ | _
    · simp [hadm]
    · simp only [hadm, Bool.not_true, Bool.false_eq_true, if_false]
      exact update_user_isSome
  · intro d
    simp only [applyOp, hcu]
    exact update_own_profile_isSome
  · simp only [applyOp, hcu]
    rfl

theorem c10_body_guard_witness :
    applyOp (.update_own_profile 2 none) dbW = none ∧
    applyOp (.create_post 2 none) dbW = some (400, dbW) :=
  let h := c10_body_guard dbW 2
    { id := 2, username := ("bob".toList), email := ("b@x".toList),
      password_hash := ("pw".toList), is_admin := false, created_at := 0 }
    (by decide)
  ⟨h.2.2.1, h.2.2.2.2.2.2.2⟩
